import Mathlib

/-!
# EtherCAT attack modules: frame codec and capture/mutate/replay engine

A shallow embedding of the frame encoder `build_frame` (modules `ecat_dos` and
`ecat_inject`), of the marker injection `inject_signature`, of the capture loop and the
four per-entry mutation bodies of module `ecat_mitm`, and of the test functions and the
entry point `kraken_run_v2` of the three modules.

Conventions of the embedding:

* a byte buffer (`uint8_t *`, `uint8_t x[N]`) is a map from offsets to cell values;
  a store into a cell truncates to 8 bits, exactly as the C assignment does;
* `uint16_t` locals are reduced modulo `65536` where they are assigned;
* `size_t` values are natural numbers (the lengths involved are at most 1500);
* a function that writes through a pointer and returns a count returns the pair
  of the buffer after the call and the count;
* the host's `send` and `recv` are sequences of results, and a loop bounded by
  `clock()` runs over the finite sequence of iterations the clock allows.
-/

namespace Kraken

/-! ## Memory model -/

/-- A byte buffer, indexed by offset. Each cell holds a `uint8_t` value. -/
abbrev Buf := Nat → Nat

/-- The store `buf[i] = v` into a `uint8_t` cell. -/
def wr (buf : Buf) (i v : Nat) : Buf :=
  fun j => if j = i then v % 256 else buf j

/-- The calls `memcpy(dst + d, src + s, n)` and `memmove(dst + d, src + s, n)`:
the `n` source bytes are read before any destination byte is written. -/
def memcpy (dst : Buf) (d : Nat) (src : Buf) (s n : Nat) : Buf :=
  fun j => if d ≤ j ∧ j < d + n then src (s + (j - d)) else dst j

/-- The call `memset(dst + d, v, n)`. -/
def memset (dst : Buf) (d v n : Nat) : Buf :=
  fun j => if d ≤ j ∧ j < d + n then v % 256 else dst j

/-- The first `n` bytes of a buffer, as a list. -/
def bytes (buf : Buf) (n : Nat) : List Nat :=
  (List.range n).map buf

/-- The buffer whose leading cells hold the given list (zero elsewhere). -/
def ofList (l : List Nat) : Buf :=
  fun i => l.getD i 0

/-! ## Constants -/

/-- The constant `#define ECAT_TYPE 1`: the fieldbus sub-frame type. -/
def ECAT_TYPE : Nat := 1

/-- The constant `#define KRAKEN_SIG "KRKN"`: the attribution marker. -/
def KRAKEN_SIG : Buf := ofList [0x4B, 0x52, 0x4B, 0x4E]

/-- The constant `#define KRAKEN_SIG_LEN 4`. -/
def KRAKEN_SIG_LEN : Nat := 4

/-- The constant `#define MAX_CAPTURED 100`. -/
def MAX_CAPTURED : Nat := 100

/-! ## Header decoding (ecat_mitm.c, lines 28-30 and 36-37) -/

/-- The 16-bit little-endian read `buf[i] | (buf[i+1] << 8)` into a `uint16_t`. -/
def le16 (buf : Buf) (i : Nat) : Nat :=
  (buf i ||| (buf (i + 1) <<< 8)) % 65536

/-- The declared 11-bit length, `header & 0x7FF`. -/
def hdr_len (header : Nat) : Nat :=
  header &&& 0x7FF

/-- The type nibble, `(header >> 12) & 0x0F`, stored in a `uint8_t`. -/
def hdr_type (header : Nat) : Nat :=
  ((header >>> 12) &&& 0x0F) % 256

/-! ## The frame encoder -/

namespace EcatDos

/-- The function `build_frame` of ecat_dos.c, lines 16-44. `data = none` is the null
pointer. -/
def build_frame (buf : Buf) (cmd addr offset : Nat) (data : Option Buf)
    (data_len wkc : Nat) : Buf × Nat :=
  let total_data_len := (data_len + KRAKEN_SIG_LEN) % 65536
  let frame_len := (10 + total_data_len + 2) % 65536
  let header := ((frame_len &&& 0x7FF) ||| (ECAT_TYPE <<< 12)) % 65536
  let buf := wr buf 0 (header &&& 0xFF)
  let buf := wr buf 1 ((header >>> 8) &&& 0xFF)
  let buf := wr buf 2 cmd
  let buf := wr buf 3 0x01
  let buf := wr buf 4 (addr &&& 0xFF)
  let buf := wr buf 5 (addr >>> 8)
  let buf := wr buf 6 (offset &&& 0xFF)
  let buf := wr buf 7 (offset >>> 8)
  let len_flags := total_data_len &&& 0x7FF
  let buf := wr buf 8 (len_flags &&& 0xFF)
  let buf := wr buf 9 ((len_flags >>> 8) &&& 0xFF)
  let buf := wr buf 10 0
  let buf := wr buf 11 0
  let buf := memcpy buf 12 KRAKEN_SIG 0 KRAKEN_SIG_LEN
  let buf :=
    match data with
    | some d => if data_len > 0 then memcpy buf (12 + KRAKEN_SIG_LEN) d 0 data_len else buf
    | none => if data_len > 0 then memset buf (12 + KRAKEN_SIG_LEN) 0 data_len else buf
  let buf := wr buf (12 + total_data_len) (wkc &&& 0xFF)
  let buf := wr buf (12 + total_data_len + 1) ((wkc >>> 8) &&& 0xFF)
  (buf, 2 + frame_len)

end EcatDos

namespace EcatInject

/-- The function `build_frame` of ecat_inject.c, lines 16-57 (the same text as in
ecat_dos.c). -/
def build_frame (buf : Buf) (cmd addr offset : Nat) (data : Option Buf)
    (data_len wkc : Nat) : Buf × Nat :=
  let total_data_len := (data_len + KRAKEN_SIG_LEN) % 65536
  let frame_len := (10 + total_data_len + 2) % 65536
  let header := ((frame_len &&& 0x7FF) ||| (ECAT_TYPE <<< 12)) % 65536
  let buf := wr buf 0 (header &&& 0xFF)
  let buf := wr buf 1 ((header >>> 8) &&& 0xFF)
  let buf := wr buf 2 cmd
  let buf := wr buf 3 0x01
  let buf := wr buf 4 (addr &&& 0xFF)
  let buf := wr buf 5 (addr >>> 8)
  let buf := wr buf 6 (offset &&& 0xFF)
  let buf := wr buf 7 (offset >>> 8)
  let len_flags := total_data_len &&& 0x7FF
  let buf := wr buf 8 (len_flags &&& 0xFF)
  let buf := wr buf 9 ((len_flags >>> 8) &&& 0xFF)
  let buf := wr buf 10 0
  let buf := wr buf 11 0
  let buf := memcpy buf 12 KRAKEN_SIG 0 KRAKEN_SIG_LEN
  let buf :=
    match data with
    | some d => if data_len > 0 then memcpy buf (12 + KRAKEN_SIG_LEN) d 0 data_len else buf
    | none => if data_len > 0 then memset buf (12 + KRAKEN_SIG_LEN) 0 data_len else buf
  let buf := wr buf (12 + total_data_len) (wkc &&& 0xFF)
  let buf := wr buf (12 + total_data_len + 1) ((wkc >>> 8) &&& 0xFF)
  (buf, 2 + frame_len)

end EcatInject

/-! ## Marker injection and the mutation bodies (ecat_mitm.c) -/

namespace EcatMitm

/-- The struct `captured_frame_t`: one entry of the capture buffer. -/
structure captured_frame_t where
  data : Buf
  len : Nat

/-- The function `inject_signature` of ecat_mitm.c, lines 24-61. -/
def inject_signature (frame : Buf) (len : Nat) : Buf × Nat :=
  if len < 14 then (frame, 0) else
  let header := le16 frame 0
  let frame_len := hdr_len header
  let frame_type := hdr_type header
  if frame_type ≠ 1 then (frame, len) else
  if frame_len < 12 then (frame, len) else
  let len_flags := le16 frame 8
  let data_len := len_flags &&& 0x7FF
  let new_len := len + KRAKEN_SIG_LEN
  if new_len > 1500 then (frame, len) else
  let frame := memcpy frame (12 + KRAKEN_SIG_LEN) frame 12 (len - 12)
  let frame := memcpy frame 12 KRAKEN_SIG 0 KRAKEN_SIG_LEN
  let new_frame_len := (frame_len + KRAKEN_SIG_LEN) % 65536
  let frame := wr frame 0 (new_frame_len &&& 0xFF)
  let frame := wr frame 1 (((new_frame_len >>> 8) &&& 0x07) ||| (frame_type <<< 4))
  let new_data_len := (data_len + KRAKEN_SIG_LEN) % 65536
  let frame := wr frame 8 (new_data_len &&& 0xFF)
  let frame := wr frame 9 ((len_flags &&& 0xF800) ||| ((new_data_len >>> 8) &&& 0x07))
  (frame, new_len)

/-- The working-counter alteration of `test_modified_wkc` (lines 141-149), applied to
the stripped sub-frame `modified` of `ecat_len` bytes. -/
def alter_wkc (modified : Buf) (ecat_len : Nat) : Buf :=
  if ecat_len > 4 then
    let header := le16 modified 0
    let frame_len := hdr_len header
    if frame_len > 2 ∧ frame_len ≤ ecat_len - 2 then
      let modified := wr modified frame_len 0xFF
      wr modified (frame_len + 1) 0x00
    else modified
  else modified

/-- The loop `for (j = ...; j < ecat_len - 2 && j < 20; j++) modified[j] ^= 0xAA;`
of `test_corrupted_data` (line 184), entered at index `j` with `fuel` iterations
allowed. -/
def corrupt_loop (ecat_len : Nat) : Nat → Nat → Buf → Buf
  | 0, _, modified => modified
  | fuel + 1, j, modified =>
    if j < ecat_len - 2 ∧ j < 20 then
      corrupt_loop ecat_len fuel (j + 1) (wr modified j (modified j ^^^ 0xAA))
    else modified

/-- The payload corruption of `test_corrupted_data` (lines 183-187). The loop runs
from `j = 12` and stops at `j = 20` at the latest, so eight iterations suffice. -/
def corrupt_data (modified : Buf) (ecat_len : Nat) : Buf :=
  if ecat_len > 14 then corrupt_loop ecat_len 8 12 modified else modified

/-- The command substitution of `test_cmd_substitution` (lines 221-227). -/
def substitute_cmd (modified : Buf) (ecat_len : Nat) : Buf :=
  if ecat_len > 2 then
    let cmd := modified 2
    if cmd = 1 ∨ cmd = 4 ∨ cmd = 7 ∨ cmd = 10 then wr modified 2 (cmd + 1) else modified
  else modified

/-- The loop body of `test_replay` (lines 102-113) for one captured entry: the buffer
and the length passed to `ops->send`; `none` when the entry is skipped. `modified` is
the content of the local array before the copy. -/
def replay_body (modified : Buf) (e : captured_frame_t) : Option (Buf × Nat) :=
  if e.len > 14 then
    let ecat_len := e.len - 14
    let modified := memcpy modified 0 e.data 14 ecat_len
    some (inject_signature modified ecat_len)
  else none

/-- The loop body of `test_modified_wkc` (lines 132-156) for one captured entry. -/
def modified_wkc_body (modified : Buf) (e : captured_frame_t) : Option (Buf × Nat) :=
  let len := e.len
  if len ≤ 14 then none else
  let modified := memcpy modified 0 e.data 14 (len - 14)
  let ecat_len := len - 14
  let modified := alter_wkc modified ecat_len
  some (inject_signature modified ecat_len)

/-- The loop body of `test_corrupted_data` (lines 175-194) for one captured entry. -/
def corrupted_data_body (modified : Buf) (e : captured_frame_t) : Option (Buf × Nat) :=
  let len := e.len
  if len ≤ 14 then none else
  let modified := memcpy modified 0 e.data 14 (len - 14)
  let ecat_len := len - 14
  let modified := corrupt_data modified ecat_len
  some (inject_signature modified ecat_len)

/-- The loop body of `test_cmd_substitution` (lines 213-234) for one captured entry. -/
def cmd_substitution_body (modified : Buf) (e : captured_frame_t) : Option (Buf × Nat) :=
  let len := e.len
  if len ≤ 14 then none else
  let modified := memcpy modified 0 e.data 14 (len - 14)
  let ecat_len := len - 14
  let modified := substitute_cmd modified ecat_len
  some (inject_signature modified ecat_len)

end EcatMitm

/-! ## Access footprints (ecat_mitm.c)

The buffer offsets that the mutation steps and `inject_signature` touch, read off the
same statements as the functions above. -/

namespace EcatMitm

/-- The offsets `inject_signature` reads (lines 28, 36 and the source of the `memmove`
on line 45); none when the length guard fires, the header alone when a later guard
fires before line 36. -/
def inject_signature_reads (frame : Buf) (len : Nat) : List Nat :=
  if len < 14 then [] else
  let header := le16 frame 0
  let frame_len := hdr_len header
  let frame_type := hdr_type header
  if frame_type ≠ 1 then [0, 1] else
  if frame_len < 12 then [0, 1] else
  let new_len := len + KRAKEN_SIG_LEN
  if new_len > 1500 then [0, 1, 8, 9] else
  [0, 1, 8, 9] ++ List.range' 12 (len - 12)

/-- The offsets `inject_signature` writes (lines 45-58): the destination of the
`memmove`, the marker and the four rewritten length bytes; none when a guard fires. -/
def inject_signature_writes (frame : Buf) (len : Nat) : List Nat :=
  if len < 14 then [] else
  let header := le16 frame 0
  let frame_len := hdr_len header
  let frame_type := hdr_type header
  if frame_type ≠ 1 then [] else
  if frame_len < 12 then [] else
  let new_len := len + KRAKEN_SIG_LEN
  if new_len > 1500 then [] else
  List.range' (12 + KRAKEN_SIG_LEN) (len - 12) ++ List.range' 12 KRAKEN_SIG_LEN ++ [0, 1, 8, 9]

/-- The offsets the working-counter alteration reads or writes (lines 141-149). -/
def alter_wkc_accesses (modified : Buf) (ecat_len : Nat) : List Nat :=
  if ecat_len > 4 then
    let header := le16 modified 0
    let frame_len := hdr_len header
    if frame_len > 2 ∧ frame_len ≤ ecat_len - 2 then [0, 1, frame_len, frame_len + 1]
    else [0, 1]
  else []

/-- The offsets the corruption loop reads and writes (line 185), entered at index `j`
with `fuel` iterations allowed. -/
def corrupt_loop_accesses (ecat_len : Nat) : Nat → Nat → List Nat
  | 0, _ => []
  | fuel + 1, j =>
    if j < ecat_len - 2 ∧ j < 20 then j :: corrupt_loop_accesses ecat_len fuel (j + 1)
    else []

/-- The offsets the payload corruption reads and writes (lines 183-187). -/
def corrupt_data_accesses (ecat_len : Nat) : List Nat :=
  if ecat_len > 14 then corrupt_loop_accesses ecat_len 8 12 else []

/-- The offsets the command substitution reads or writes (lines 221-227). -/
def substitute_cmd_accesses (ecat_len : Nat) : List Nat :=
  if ecat_len > 2 then [2] else []

end EcatMitm

/-! ## The host connection and the result object (kraken_module_abi_v2.h)

The host's `send` may behave in any way: its behaviour during one invocation is the
sequence of byte counts it returns, indexed by the number of the call. `clock()` is not
modelled: a loop bounded by the clock runs over the finite sequence of iterations that
the clock allows, which the environment supplies. Counters of type `int` are natural
numbers. Of a finding, the fields `id`, `module_id`, `success`, `title` and `severity`
are kept; `calloc` failure is the flag `calloc_ok`. -/

/-- One call `ops->send(conn, data, len, timeout_ms)`. -/
structure SendCall where
  data : Buf
  len : Nat
  timeout_ms : Nat

/-- The connection: the byte count the host returns on its k-th `send` call, and the
calls made so far. -/
structure Conn where
  send_result : Nat → Int
  sent : List SendCall

/-- The call `ops->send(conn, data, len, timeout_ms)`: the returned byte count and the
connection afterwards. -/
def ops_send (conn : Conn) (data : Buf) (len timeout_ms : Nat) : Int × Conn :=
  (conn.send_result conn.sent.length,
    { conn with sent := conn.sent ++ [{ data := data, len := len, timeout_ms := timeout_ms }] })

/-- The struct `KrakenFindingV2`. -/
structure KrakenFindingV2 where
  id : String
  module_id : String
  success : Bool
  title : String
  severity : String

/-- The struct `KrakenRunResultV2`. -/
structure KrakenRunResultV2 where
  findings : List KrakenFindingV2
  logs : List String

/-- The helper `add_log_v2`. -/
def add_log_v2 (result : KrakenRunResultV2) (log_line : String) : KrakenRunResultV2 :=
  { result with logs := result.logs ++ [log_line] }

/-- The helper `add_finding_v2`. -/
def add_finding_v2 (result : KrakenRunResultV2) (finding : KrakenFindingV2) :
    KrakenRunResultV2 :=
  { result with findings := result.findings ++ [finding] }

/-- The counting loop shared by the tests,
`for (...) { if (ops->send(conn, frame, len, timeout_ms) > 0) sent++; }`,
over the frames prepared for the successive iterations; `none` is an iteration that
ends in `continue` before the send. -/
def send_loop (timeout_ms : Nat) : List (Option (Buf × Nat)) → Nat → Conn → Nat × Conn
  | [], sent, conn => (sent, conn)
  | none :: rest, sent, conn => send_loop timeout_ms rest sent conn
  | some (frame, len) :: rest, sent, conn =>
    let r := ops_send conn frame len timeout_ms
    send_loop timeout_ms rest (if r.1 > 0 then sent + 1 else sent) r.2

/-- At least one of the `send` calls numbered `a ≤ k < b` returned a positive byte
count. -/
def some_positive (send_result : Nat → Int) (a b : Nat) : Prop :=
  ∃ k, a ≤ k ∧ k < b ∧ send_result k > 0

/-- A stretch of the invocation from connection state `conn` to `conn2` that counted
`sent` frames: the host is the same, calls were only added, and the count is positive
exactly when one of the added calls returned a positive byte count. -/
def counts_positive (conn conn2 : Conn) (sent : Nat) : Prop :=
  conn2.send_result = conn.send_result ∧ conn.sent.length ≤ conn2.sent.length ∧
  (0 < sent ↔ some_positive conn.send_result conn.sent.length conn2.sent.length)

/-! ## Capture and replay (ecat_mitm.c, lines 63-304) -/

namespace EcatMitm

/-- The loop of `capture_frames` (lines 69-83) over the receive results delivered while
`clock() < end`: each is the returned count `n` and the content of `buf` after the
call. The static array `captured` with `capture_count` is the list of its first
`capture_count` entries; `stale i` is what slot `i` held before. The second component
counts the `recv` calls made. -/
def capture_loop (stale : Nat → Buf) :
    List (Int × Buf) → List captured_frame_t → Nat → List captured_frame_t × Nat
  | [], captured, recv_calls => (captured, recv_calls)
  | (n, buf) :: rest, captured, recv_calls =>
    if captured.length < MAX_CAPTURED then
      if n > 16 then
        let header := le16 buf 14
        let frame_type := hdr_type header
        if frame_type = 1 then
          capture_loop stale rest
            (captured ++
              [{ data := memcpy (stale captured.length) 0 buf 0 n.toNat, len := n.toNat }])
            (recv_calls + 1)
        else capture_loop stale rest captured (recv_calls + 1)
      else capture_loop stale rest captured (recv_calls + 1)
    else (captured, recv_calls)

/-- The acceptance test of the capture loop (lines 72 and 75-77) on one receive result:
more than 16 bytes, and type nibble 1 in the header that follows the 14-byte link
header. -/
def qualifies (r : Int × Buf) : Bool :=
  decide (r.1 > 16 ∧ hdr_type (le16 r.2 14) = 1)

/-- What is stored of a chunk or held by an entry: the length and that many bytes. -/
def stored_view (len : Nat) (data : Buf) : Nat × List Nat :=
  (len, bytes data len)

/-- The function `capture_frames` (lines 63-90): the captured entries, the number of
`recv` calls made, the result object and the returned count. -/
def capture_frames (recvs : List (Int × Buf)) (stale : Nat → Buf)
    (result : KrakenRunResultV2) (duration_ms : Int) :
    List captured_frame_t × Nat × KrakenRunResultV2 × Int :=
  let r := capture_loop stale recvs [] 0
  let result := add_log_v2 result ("  Captured " ++ toString r.1.length ++ " EtherCAT frames")
  (r.1, r.2, result, (r.1.length : Int))

/-- The function `test_replay` (lines 92-121). -/
def test_replay (conn : Conn) (captured : List captured_frame_t)
    (result : KrakenRunResultV2) (modified : Buf) : Nat × Conn × KrakenRunResultV2 :=
  if captured.length = 0 then
    (0, conn, add_log_v2 result "  Replay: no frames to replay")
  else
    let r := send_loop 50 (captured.map (replay_body modified)) 0 conn
    (r.1, r.2, add_log_v2 result ("  Replay: sent " ++ toString r.1 ++ " captured frames"))

/-- The function `test_modified_wkc` (lines 123-164). -/
def test_modified_wkc (conn : Conn) (captured : List captured_frame_t)
    (result : KrakenRunResultV2) (modified : Buf) : Nat × Conn × KrakenRunResultV2 :=
  if captured.length = 0 then
    (0, conn, add_log_v2 result "  Modified WKC: no frames")
  else
    let r := send_loop 50 ((captured.take 20).map (modified_wkc_body modified)) 0 conn
    (r.1, r.2,
      add_log_v2 result ("  Modified WKC: sent " ++ toString r.1 ++ " frames with altered WKC"))

/-- The function `test_corrupted_data` (lines 166-202). -/
def test_corrupted_data (conn : Conn) (captured : List captured_frame_t)
    (result : KrakenRunResultV2) (modified : Buf) : Nat × Conn × KrakenRunResultV2 :=
  if captured.length = 0 then
    (0, conn, add_log_v2 result "  Corrupted data: no frames")
  else
    let r := send_loop 50 ((captured.take 20).map (corrupted_data_body modified)) 0 conn
    (r.1, r.2,
      add_log_v2 result
        ("  Corrupted data: sent " ++ toString r.1 ++ " frames with flipped bits"))

/-- The function `test_cmd_substitution` (lines 204-242). -/
def test_cmd_substitution (conn : Conn) (captured : List captured_frame_t)
    (result : KrakenRunResultV2) (modified : Buf) : Nat × Conn × KrakenRunResultV2 :=
  if captured.length = 0 then
    (0, conn, add_log_v2 result "  Cmd substitution: no frames")
  else
    let r := send_loop 50 ((captured.take 20).map (cmd_substitution_body modified)) 0 conn
    (r.1, r.2,
      add_log_v2 result
        ("  Cmd substitution: sent " ++ toString r.1 ++ " frames with changed commands"))

/-- The entry point `kraken_run_v2` of the MITM module (lines 244-304): the status code,
the result object and the connection afterwards. -/
def kraken_run_v2 (calloc_ok : Bool) (conn : Conn) (recvs : List (Int × Buf))
    (stale : Nat → Buf) (modified : Buf) : Int × Option KrakenRunResultV2 × Conn :=
  if calloc_ok = false then (-1, none, conn) else
  let result : KrakenRunResultV2 := { findings := [], logs := [] }
  let result := add_log_v2 result "Starting EtherCAT MITM tests"
  let result := add_log_v2 result "Phase 1: Capturing traffic (2 seconds)"
  let c := capture_frames recvs stale result 2000
  let captured := c.1
  let result := c.2.2.1
  let total_sent := 0
  let result := add_log_v2 result "Phase 2: Replay attacks"
  let result := add_log_v2 result "Test 1: Simple replay"
  let t := test_replay conn captured result modified
  let total_sent := total_sent + t.1
  let result := add_log_v2 t.2.2 "Test 2: Modified WKC"
  let t := test_modified_wkc t.2.1 captured result modified
  let total_sent := total_sent + t.1
  let result := add_log_v2 t.2.2 "Test 3: Corrupted data"
  let t := test_corrupted_data t.2.1 captured result modified
  let total_sent := total_sent + t.1
  let result := add_log_v2 t.2.2 "Test 4: Command substitution"
  let t := test_cmd_substitution t.2.1 captured result modified
  let total_sent := total_sent + t.1
  let result := add_log_v2 t.2.2
    ("MITM tests complete. Captured " ++ toString captured.length ++ ", replayed/modified " ++
      toString total_sent ++ " frames")
  let success := decide (captured.length > 0 ∧ total_sent > 0)
  let finding : KrakenFindingV2 :=
    { id := "ecat-mitm", module_id := "ecat_mitm", success := success,
      title := "EtherCAT MITM Testing", severity := if success then "high" else "info" }
  (0, some (add_finding_v2 result finding), t.2.1)

end EcatMitm

/-! ## The DoS module (ecat_dos.c, lines 46-185)

Log lines are left out for this module: one of them formats a floating-point rate. -/

namespace EcatDos

/-- The function `test_flood` (lines 46-66): `iterations` is the number of times the
loop condition `clock() < end` holds. -/
def test_flood (conn : Conn) (duration_ms : Int) (iterations : Nat) (frame : Buf) :
    Nat × Conn :=
  let data : Buf := ofList [0, 0]
  let r := build_frame frame 7 0 0 (some data) 2 0
  send_loop 1 (List.replicate iterations (some (r.1, r.2))) 0 conn

/-- The function `test_state_change` (lines 68-85). -/
def test_state_change (conn : Conn) (frame : Buf) : Nat × Conn :=
  let data : Buf := ofList [0x01, 0x00]
  let r := build_frame frame 8 0 0x0120 (some data) 2 0
  send_loop 10 (List.replicate 50 (some (r.1, r.2))) 0 conn

/-- The function `test_timing_disruption` (lines 87-110): ten bursts of twenty sends;
the pauses between bursts only pass time. -/
def test_timing_disruption (conn : Conn) (frame : Buf) : Nat × Conn :=
  let data : Buf := ofList [0, 0]
  let r := build_frame frame 7 0 0 (some data) 2 0
  send_loop 1 (List.replicate 10 (List.replicate 20 (some (r.1, r.2)))).flatten 0 conn

/-- The function `test_large_frames` (lines 112-130). -/
def test_large_frames (conn : Conn) (frame : Buf) : Nat × Conn :=
  let data : Buf := memset frame 0 0xAA 1400
  let r := build_frame frame 7 0 0 (some data) 1400 0
  send_loop 50 (List.replicate 20 (some (r.1, r.2))) 0 conn

/-- The entry point `kraken_run_v2` of the DoS module (lines 132-185). -/
def kraken_run_v2 (calloc_ok : Bool) (conn : Conn) (flood_iterations : Nat) (frame : Buf) :
    Int × Option KrakenRunResultV2 × Conn :=
  if calloc_ok = false then (-1, none, conn) else
  let result : KrakenRunResultV2 := { findings := [], logs := [] }
  let total_sent := 0
  let t := test_flood conn 500 flood_iterations frame
  let total_sent := total_sent + t.1
  let t := test_state_change t.2 frame
  let total_sent := total_sent + t.1
  let t := test_timing_disruption t.2 frame
  let total_sent := total_sent + t.1
  let t := test_large_frames t.2 frame
  let total_sent := total_sent + t.1
  let finding : KrakenFindingV2 :=
    { id := "ecat-dos", module_id := "ecat_dos", success := decide (total_sent > 0),
      title := "EtherCAT DoS Testing", severity := "medium" }
  (0, some (add_finding_v2 result finding), t.2)

end EcatDos

/-! ## The injection module (ecat_inject.c, lines 59-212) -/

namespace EcatInject

/-- The struct `test_case_t`. -/
structure test_case_t where
  name : String
  description : String
  test_fn : Conn → KrakenRunResultV2 → Buf → Int × Conn × KrakenRunResultV2

/-- The function `test_spoofed_wkc` (lines 65-80). -/
def test_spoofed_wkc (conn : Conn) (result : KrakenRunResultV2) (frame : Buf) :
    Int × Conn × KrakenRunResultV2 :=
  let data : Buf := ofList [0, 0]
  let r := build_frame frame 7 0 0 (some data) 2 99
  let sent := ops_send conn r.1 r.2 100
  if sent.1 < 0 then
    (-1, sent.2, add_log_v2 result "  Failed to send spoofed WKC frame")
  else
    (0, sent.2, add_log_v2 result "  Sent BRD with spoofed WKC=99")

/-- The function `test_invalid_length` (lines 82-108). -/
def test_invalid_length (conn : Conn) (result : KrakenRunResultV2) (frame : Buf) :
    Int × Conn × KrakenRunResultV2 :=
  let header := ((100 &&& 0x7FF) ||| (ECAT_TYPE <<< 12)) % 65536
  let frame := wr frame 0 (header &&& 0xFF)
  let frame := wr frame 1 ((header >>> 8) &&& 0xFF)
  let frame := wr frame 2 7
  let frame := wr frame 3 1
  let frame := memset frame 4 0 8
  let frame := wr frame 8 2
  let frame := wr frame 12 0
  let frame := wr frame 13 0
  let frame := wr frame 14 0
  let frame := wr frame 15 0
  let sent := ops_send conn frame 16 100
  if sent.1 < 0 then
    (-1, sent.2, add_log_v2 result "  Failed to send invalid length frame")
  else
    (0, sent.2, add_log_v2 result "  Sent frame with mismatched length field")

/-- The function `test_slave_impersonation` (lines 110-125). -/
def test_slave_impersonation (conn : Conn) (result : KrakenRunResultV2) (frame : Buf) :
    Int × Conn × KrakenRunResultV2 :=
  let data : Buf := ofList [0x12, 0x34]
  let r := build_frame frame 4 0x1000 0 (some data) 2 1
  let sent := ops_send conn r.1 r.2 100
  if sent.1 < 0 then
    (-1, sent.2, add_log_v2 result "  Failed to send impersonation frame")
  else
    (0, sent.2, add_log_v2 result "  Sent FPRD response impersonating slave 0x1000")

/-- The function `test_nop_flood` (lines 127-143). -/
def test_nop_flood (conn : Conn) (result : KrakenRunResultV2) (frame : Buf) :
    Int × Conn × KrakenRunResultV2 :=
  let r := build_frame frame 0 0 0 none 0 0
  let l := send_loop 10 (List.replicate 100 (some (r.1, r.2))) 0 conn
  let result := add_log_v2 result ("  Sent " ++ toString l.1 ++ " NOP frames")
  (if l.1 > 0 then 0 else -1, l.2, result)

/-- The table `tests` (lines 145-150). -/
def tests : List test_case_t :=
  [ { name := "spoofed_wkc", description := "Inject frame with spoofed working counter",
      test_fn := test_spoofed_wkc },
    { name := "invalid_length", description := "Inject frame with invalid length field",
      test_fn := test_invalid_length },
    { name := "slave_impersonation", description := "Inject frame impersonating slave response",
      test_fn := test_slave_impersonation },
    { name := "nop_flood", description := "Flood with NOP frames", test_fn := test_nop_flood } ]

/-- The constant `NUM_TESTS` (line 152). -/
def NUM_TESTS : Nat := tests.length

/-- The loop of `kraken_run_v2` over the test table (lines 174-187): the counters
`passed` and `failed`, the connection and the result object after the remaining tests. -/
def run_tests (frame : Buf) :
    List test_case_t → Nat → Nat → Conn → KrakenRunResultV2 →
      Nat × Nat × Conn × KrakenRunResultV2
  | [], passed, failed, conn, result => (passed, failed, conn, result)
  | t :: rest, passed, failed, conn, result =>
    let result := add_log_v2 result ("Test: " ++ t.name)
    let ret := t.test_fn conn result frame
    if ret.1 = 0 then
      run_tests frame rest (passed + 1) failed ret.2.1
        (add_log_v2 ret.2.2 "  PASS: Frame injected")
    else
      run_tests frame rest passed (failed + 1) ret.2.1
        (add_log_v2 ret.2.2 "  FAIL: Could not inject")

/-- The entry point `kraken_run_v2` of the injection module (lines 154-212). -/
def kraken_run_v2 (calloc_ok : Bool) (conn : Conn) (frame : Buf) :
    Int × Option KrakenRunResultV2 × Conn :=
  if calloc_ok = false then (-1, none, conn) else
  let result : KrakenRunResultV2 := { findings := [], logs := [] }
  let result := add_log_v2 result "Starting EtherCAT frame injection tests"
  let r := run_tests frame tests 0 0 conn result
  let passed := r.1
  let result := add_log_v2 r.2.2.2
    ("Results: " ++ toString passed ++ "/" ++ toString NUM_TESTS ++ " tests passed")
  let finding : KrakenFindingV2 :=
    { id := "ecat-injection", module_id := "ecat_inject", success := decide (passed > 0),
      title := "EtherCAT Frame Injection",
      severity := if passed > 0 then "medium" else "info" }
  (0, some (add_finding_v2 result finding), r.2.2.1)

end EcatInject

/-! ## Concrete sub-frames used as test inputs -/

/-- A 16-byte sub-frame (type 1, declared length 14, command 7) whose inner
payload-length field is `0x07FF`: the largest 11-bit value, reserved bits clear. -/
def frame_full_data_len : Buf :=
  ofList [0x0E, 0x10, 0x07, 0x01, 0x00, 0x00, 0x00, 0x00, 0xFF, 0x07, 0x00, 0x00,
    0x11, 0x22, 0x00, 0x00]

/-- A 16-byte sub-frame (type 1, command 7) whose outer header declares the largest
11-bit length, 2047. -/
def frame_full_frame_len : Buf :=
  ofList [0xFF, 0x17, 0x07, 0x01, 0x00, 0x00, 0x00, 0x00, 0x02, 0x00, 0x00, 0x00,
    0x11, 0x22, 0x00, 0x00]

/-- A 16-byte sub-frame (type 1, declared length 14, command 7, two payload bytes)
whose inner payload-length field is `0x8002`: length 2 with the top reserved bit set. -/
def frame_more_follows : Buf :=
  ofList [0x0E, 0x10, 0x07, 0x01, 0x00, 0x00, 0x00, 0x00, 0x02, 0x80, 0x00, 0x00,
    0x11, 0x22, 0x00, 0x00]

/-- A 5-byte sub-frame: header (type 1, declared length 14), command 7 and two more
bytes. -/
def frame_short : Buf :=
  ofList [0x0E, 0x10, 0x07, 0x01, 0x00]

/-- A captured entry of 30 bytes: a 14-byte link header (broadcast destination,
EtherType `0x88A4`) followed by the 16-byte sub-frame of `frame_more_follows`
(command 7, an allow-listed read). -/
def entry_read : EcatMitm.captured_frame_t :=
  { data := ofList [0xFF, 0xFF, 0xFF, 0xFF, 0xFF, 0xFF, 0x02, 0x00, 0x00, 0x00, 0x00, 0x01,
      0x88, 0xA4,
      0x0E, 0x10, 0x07, 0x01, 0x00, 0x00, 0x00, 0x00, 0x02, 0x80, 0x00, 0x00,
      0x11, 0x22, 0x00, 0x00],
    len := 30 }

/-- A captured entry of 19 bytes: a 14-byte link header followed by a 5-byte sub-frame
(type 1, declared length 14, command 8). It passes the capture filter: it is longer
than 16 bytes and its type nibble is 1. -/
def entry_short : EcatMitm.captured_frame_t :=
  { data := ofList [0xFF, 0xFF, 0xFF, 0xFF, 0xFF, 0xFF, 0x02, 0x00, 0x00, 0x00, 0x00, 0x01,
      0x88, 0xA4,
      0x0E, 0x10, 0x08, 0x01, 0x00],
    len := 19 }

/-- The content of the local array `modified` before the copy, taken as all zero. -/
def zeroed : Buf := fun _ => 0

/-- The payload `KRKN` followed by the bytes of `p`. -/
def with_marker (p : Buf) : Buf :=
  fun i => if i < KRAKEN_SIG_LEN then KRAKEN_SIG i else p (i - KRAKEN_SIG_LEN)

/-- Four receive results: the 30-byte entry, a 12-byte chunk, a receive error and the
19-byte entry. -/
def recvs_example : List (Int × Buf) :=
  [(30, entry_read.data), (12, entry_short.data), (-1, zeroed), (19, entry_short.data)]

/-- The result object before the first log line. -/
def empty_result : KrakenRunResultV2 :=
  { findings := [], logs := [] }

/-- A host whose `send` returns 0 on every call, before the first call. -/
def conn_zero : Conn :=
  { send_result := fun _ => 0, sent := [] }

/-- A host whose `send` fails with -1 on every call, before the first call. -/
def conn_fail : Conn :=
  { send_result := fun _ => -1, sent := [] }

/-! ## Closed forms used in the proofs -/

/-- The closed form of the bytes `build_frame` leaves in the buffer. -/
def encoded (buf : Buf) (cmd addr offset : Nat) (data : Option Buf) (n wkc : Nat) : Buf :=
  fun j =>
    if j = n + 17 then wkc / 256 % 256
    else if j = n + 16 then wkc % 256
    else if 16 ≤ j ∧ j < 16 + n then (match data with | some d => d (j - 16) | none => 0)
    else if 12 ≤ j ∧ j < 16 then KRAKEN_SIG (j - 12)
    else if j = 11 then 0
    else if j = 10 then 0
    else if j = 9 then (n + 4) / 256
    else if j = 8 then (n + 4) % 256
    else if j = 7 then offset / 256 % 256
    else if j = 6 then offset % 256
    else if j = 5 then addr / 256 % 256
    else if j = 4 then addr % 256
    else if j = 3 then 1
    else if j = 2 then cmd % 256
    else if j = 1 then (n + 16) / 256 + 16
    else if j = 0 then (n + 16) % 256
    else buf j

/-- The closed form of the bytes `inject_signature` leaves in the buffer when it
performs the injection. -/
def injected (frame : Buf) (len : Nat) : Buf :=
  fun j =>
    if j = 9 then (le16 frame 8 % 2048 + 4) / 256 % 8
    else if j = 8 then (le16 frame 8 % 2048 + 4) % 256
    else if j = 1 then (hdr_len (le16 frame 0) + 4) / 256 % 8 + 16
    else if j = 0 then (hdr_len (le16 frame 0) + 4) % 256
    else if 12 ≤ j ∧ j < 16 then KRAKEN_SIG (j - 12)
    else if 16 ≤ j ∧ j < len + 4 then frame (12 + (j - 16))
    else frame j

/-! ## Arithmetic reading of the bit operations -/

theorem and_FF (x : Nat) : x &&& 0xFF = x % 256 :=
  Nat.and_pow_two_sub_one_eq_mod x 8

theorem and_7FF (x : Nat) : x &&& 0x7FF = x % 2048 :=
  Nat.and_pow_two_sub_one_eq_mod x 11

theorem and_0F (x : Nat) : x &&& 0x0F = x % 16 :=
  Nat.and_pow_two_sub_one_eq_mod x 4

theorem and_07 (x : Nat) : x &&& 0x07 = x % 8 :=
  Nat.and_pow_two_sub_one_eq_mod x 3

theorem shr_8 (x : Nat) : x >>> 8 = x / 256 :=
  Nat.shiftRight_eq_div_pow x 8

theorem shr_12 (x : Nat) : x >>> 12 = x / 4096 :=
  Nat.shiftRight_eq_div_pow x 12

theorem shl_4 (x : Nat) : x <<< 4 = x * 16 :=
  Nat.shiftLeft_eq x 4

theorem shl_8 (x : Nat) : x <<< 8 = x * 256 :=
  Nat.shiftLeft_eq x 8

theorem shl_12 (x : Nat) : x <<< 12 = x * 4096 :=
  Nat.shiftLeft_eq x 12

/-- A value below `2^k` or-ed with a multiple of `2^k` is their sum. -/
theorem or_mul_pow (k a b : Nat) (h : a < 2 ^ k) : a ||| (b * 2 ^ k) = a + b * 2 ^ k := by
  rw [Nat.or_comm, Nat.mul_comm b, ← Nat.mul_add_lt_is_or h b, Nat.add_comm]

theorem or_mul_256 (a b : Nat) (h : a < 256) : a ||| (b * 256) = a + b * 256 :=
  or_mul_pow 8 a b h

theorem or_mul_4096 (a b : Nat) (h : a < 4096) : a ||| (b * 4096) = a + b * 4096 :=
  or_mul_pow 12 a b h

theorem or_mul_16 (a b : Nat) (h : a < 16) : a ||| (b * 16) = a + b * 16 :=
  or_mul_pow 4 a b h

/-- A little-endian read of two byte cells is `lo + 256 * hi`. -/
theorem le16_eq (buf : Buf) (i : Nat) (h0 : buf i < 256) (h1 : buf (i + 1) < 256) :
    le16 buf i = buf i + buf (i + 1) * 256 := by
  unfold le16
  rw [shl_8, or_mul_256 _ _ h0]
  omega

/-! ## Memory lemmas -/

theorem wr_same (buf : Buf) (i v : Nat) : wr buf i v i = v % 256 := by
  simp [wr]

theorem wr_other (buf : Buf) (i v j : Nat) (h : j ≠ i) : wr buf i v j = buf j := by
  simp [wr, h]

theorem memcpy_inside (dst : Buf) (d : Nat) (src : Buf) (s n j : Nat) (h1 : d ≤ j)
    (h2 : j < d + n) : memcpy dst d src s n j = src (s + (j - d)) := by
  simp [memcpy, h1, h2]

theorem memcpy_outside (dst : Buf) (d : Nat) (src : Buf) (s n j : Nat)
    (h : j < d ∨ d + n ≤ j) : memcpy dst d src s n j = dst j := by
  unfold memcpy
  rw [if_neg]
  omega

theorem memset_inside (dst : Buf) (d v n j : Nat) (h1 : d ≤ j) (h2 : j < d + n) :
    memset dst d v n j = v % 256 := by
  simp [memset, h1, h2]

theorem memset_outside (dst : Buf) (d v n j : Nat) (h : j < d ∨ d + n ≤ j) :
    memset dst d v n j = dst j := by
  unfold memset
  rw [if_neg]
  omega



theorem memcpy_zero (dst : Buf) (d : Nat) (src : Buf) (s : Nat) : memcpy dst d src s 0 = dst := by
  funext j
  exact memcpy_outside dst d src s 0 j (by omega)

theorem memset_zero (dst : Buf) (d v : Nat) : memset dst d v 0 = dst := by
  funext j
  exact memset_outside dst d v 0 j (by omega)

theorem ite_memcpy (dst : Buf) (d : Nat) (src : Buf) (s n : Nat) :
    (if n > 0 then memcpy dst d src s n else dst) = memcpy dst d src s n := by
  split
  · rfl
  · have h : n = 0 := by omega
    rw [h, memcpy_zero]

theorem ite_memset (dst : Buf) (d v n : Nat) :
    (if n > 0 then memset dst d v n else dst) = memset dst d v n := by
  split
  · rfl
  · have h : n = 0 := by omega
    rw [h, memset_zero]

theorem KRAKEN_SIG_apply (i : Nat) (h : i < 4) :
    KRAKEN_SIG i = if i = 0 then 0x4B else if i = 1 then 0x52 else if i = 2 then 0x4B else 0x4E := by
  have : i = 0 ∨ i = 1 ∨ i = 2 ∨ i = 3 := by omega
  rcases this with h | h | h | h <;> subst h <;> rfl

theorem build_frame_eq (buf : Buf) (c a o : Nat) (data : Option Buf) (n w : Nat)
    (hn : n ≤ 1400) :
    EcatDos.build_frame buf c a o data n w = (encoded buf c a o data n w, n + 18) := by
  have h1 : (n + 4) % 65536 = n + 4 := by omega
  have h2 : (10 + (n + 4) + 2) % 65536 = n + 16 := by omega
  have h3 : (n + 16) % 2048 < 4096 := by omega
  simp only [EcatDos.build_frame, KRAKEN_SIG_LEN, ECAT_TYPE, h1, h2, and_FF, and_7FF, shl_12,
    shr_8, or_mul_4096 _ _ h3]
  refine Prod.ext ?_ (by show 2 + (n + 16) = n + 18; omega)
  funext j
  show _ = encoded buf c a o data n w j
  unfold encoded
  have e2 : (n + 4) % 2048 / 256 % 256 % 256 = (n + 4) / 256 := by omega
  have e3 : (n + 4) % 2048 % 256 % 256 = (n + 4) % 256 := by omega
  have e4 : ((n + 16) % 2048 + 1 * 4096) % 65536 / 256 % 256 % 256 = (n + 16) / 256 + 16 := by
    omega
  have e5 : ((n + 16) % 2048 + 1 * 4096) % 65536 % 256 % 256 = (n + 16) % 256 := by omega
  have k1 : 12 + (n + 4) + 1 = n + 17 := by omega
  have k2 : 12 + (n + 4) = n + 16 := by omega
  cases data with
  | none =>
    simp only [ite_memset]
    simp only [wr, memcpy, memset, e2, e3, e4, e5, k1, k2,
        Nat.mod_mod, Nat.zero_mod, Nat.one_mod, Nat.zero_add, Nat.reduceAdd]
  | some d =>
    simp only [ite_memcpy]
    simp only [wr, memcpy, memset, e2, e3, e4, e5, k1, k2,
        Nat.mod_mod, Nat.zero_mod, Nat.one_mod, Nat.zero_add, Nat.reduceAdd]

/-- The two modules carry the same encoder. -/
theorem build_frame_same : EcatInject.build_frame = EcatDos.build_frame := rfl

theorem encoded_header (buf : Buf) (c a o : Nat) (data : Option Buf) (n w : Nat)
    (hn : n ≤ 1400) : le16 (encoded buf c a o data n w) 0 = n + 16 + 4096 := by
  have h0 : encoded buf c a o data n w 0 = (n + 16) % 256 := by
    unfold encoded
    simp (disch := omega) only [if_neg, if_pos, if_true]
  have h1 : encoded buf c a o data n w (0 + 1) = (n + 16) / 256 + 16 := by
    unfold encoded
    simp (disch := omega) only [if_neg, if_pos, if_true]
  rw [le16_eq _ _ (by rw [h0]; omega) (by rw [h1]; omega), h0, h1]
  omega

theorem ite_else_congr (c : Prop) [Decidable c] (a x y : Nat) (h : ¬c → x = y) :
    (if c then a else x) = (if c then a else y) := by
  by_cases hc : c
  · rw [if_pos hc, if_pos hc]
  · rw [if_neg hc, if_neg hc, h hc]

/-- Below `n + 18` the encoded bytes do not depend on the earlier buffer content. -/
theorem encoded_congr (buf0 buf : Buf) (c a o : Nat) (data : Option Buf) (n w j : Nat)
    (hj : j < n + 18) : encoded buf0 c a o data n w j = encoded buf c a o data n w j := by
  unfold encoded
  repeat' (refine ite_else_congr _ _ _ _ (fun _ => ?_))
  omega

/-! ## Claims on the frame encoder -/

/-- C1: for a payload of `n ≤ 1400` bytes, decoding the first two bytes that
`build_frame` writes gives the type nibble 1 (the fieldbus sub-frame type) and the
11-bit length `10 + 4 + n + 2`. -/
theorem build_frame_header_roundtrip (buf : Buf) (cmd addr offset : Nat) (data : Option Buf)
    (n wkc : Nat) (hn : n ≤ 1400) :
    hdr_type (le16 (EcatDos.build_frame buf cmd addr offset data n wkc).1 0) = ECAT_TYPE ∧
    hdr_len (le16 (EcatDos.build_frame buf cmd addr offset data n wkc).1 0) = 10 + 4 + n + 2 := by
  rw [build_frame_eq buf cmd addr offset data n wkc hn]
  show hdr_type (le16 (encoded buf cmd addr offset data n wkc) 0) = 1 ∧ _
  rw [encoded_header buf cmd addr offset data n wkc hn]
  unfold hdr_type hdr_len
  rw [shr_12, and_0F, and_7FF]
  omega

/-- C1, end-to-end scenario 1: command 7, address 0, offset 0, payload `[0x00, 0x00]`,
working counter 0 gives type 1 and length 18. -/
theorem build_frame_header_roundtrip_witness :
    hdr_type (le16 (EcatDos.build_frame (fun _ => 0) 7 0 0 (some (ofList [0x00, 0x00])) 2 0).1 0)
      = 1 ∧
    hdr_len (le16 (EcatDos.build_frame (fun _ => 0) 7 0 0 (some (ofList [0x00, 0x00])) 2 0).1 0)
      = 18 :=
  build_frame_header_roundtrip (fun _ => 0) 7 0 0 (some (ofList [0x00, 0x00])) 2 0
    (by decide)

/-- C2: for a payload of `n ≤ 1400` bytes `build_frame` returns `n + 18 ≤ 1500`, the
number of bytes it writes: offsets 0-1 hold the little-endian header `(n+16) | 0x1000`,
offset 2 the command, offset 3 the value 1, offsets 4-5 and 6-7 the address and the
offset little-endian, offsets 8-9 the value `n + 4` little-endian (high five bits zero),
offsets 10-11 zero, offsets 12-15 the marker `KRKN`, offsets 16 to 16+n the payload
(zeros for a null payload pointer), the last two bytes the working counter little-endian;
every cell below `n + 18` is written (it does not depend on the buffer's earlier
content) and no cell from `n + 18` on is touched. -/
theorem build_frame_layout (buf : Buf) (cmd addr offset : Nat) (data : Option Buf)
    (n wkc : Nat) (hn : n ≤ 1400) (hc : cmd < 256) (ha : addr < 65536) (ho : offset < 65536)
    (hw : wkc < 65536) :
    let r := EcatInject.build_frame buf cmd addr offset data n wkc
    r.2 = n + 18 ∧ r.2 ≤ 1500 ∧
    r.1 0 = ((n + 16) ||| 0x1000) % 256 ∧ r.1 1 = ((n + 16) ||| 0x1000) / 256 ∧
    r.1 2 = cmd ∧ r.1 3 = 0x01 ∧
    r.1 4 = addr % 256 ∧ r.1 5 = addr / 256 ∧
    r.1 6 = offset % 256 ∧ r.1 7 = offset / 256 ∧
    r.1 8 = (n + 4) % 256 ∧ r.1 9 = (n + 4) / 256 ∧ le16 r.1 8 = n + 4 ∧ le16 r.1 8 >>> 11 = 0 ∧
    r.1 10 = 0 ∧ r.1 11 = 0 ∧
    r.1 12 = 0x4B ∧ r.1 13 = 0x52 ∧ r.1 14 = 0x4B ∧ r.1 15 = 0x4E ∧
    (∀ i, i < n → r.1 (16 + i) = match data with | some p => p i | none => 0) ∧
    r.1 (n + 16) = wkc % 256 ∧ r.1 (n + 17) = wkc / 256 ∧
    (∀ j, n + 18 ≤ j → r.1 j = buf j) ∧
    (∀ buf0 j, j < n + 18 →
      (EcatInject.build_frame buf0 cmd addr offset data n wkc).1 j = r.1 j) := by
  intro r
  have hr : r = (encoded buf cmd addr offset data n wkc, n + 18) :=
    build_frame_eq buf cmd addr offset data n wkc hn
  have hor : (n + 16) ||| 0x1000 = n + 16 + 4096 := by
    have h := or_mul_4096 (n + 16) 1 (by omega)
    simpa using h
  have h8 : encoded buf cmd addr offset data n wkc 8 = (n + 4) % 256 := by
    unfold encoded
    simp (disch := omega) only [if_neg, if_pos, if_true]
  have h9 : encoded buf cmd addr offset data n wkc (8 + 1) = (n + 4) / 256 := by
    unfold encoded
    simp (disch := omega) only [if_neg, if_pos, if_true]
  have hle : le16 (encoded buf cmd addr offset data n wkc) 8 = n + 4 := by
    rw [le16_eq _ _ (by rw [h8]; omega) (by rw [h9]; omega), h8, h9]
    omega
  rw [hr, hor]
  refine ⟨rfl, by show n + 18 ≤ 1500; omega, ?_, ?_, ?_, ?_, ?_, ?_, ?_, ?_, h8, h9, hle, ?_,
    ?_, ?_, ?_, ?_, ?_, ?_, ?_, ?_, ?_, ?_, ?_⟩
  · show encoded buf cmd addr offset data n wkc 0 = _
    unfold encoded
    simp (disch := omega) only [if_neg, if_pos, if_true]
    omega
  · show encoded buf cmd addr offset data n wkc 1 = _
    unfold encoded
    simp (disch := omega) only [if_neg, if_pos, if_true]
    omega
  · show encoded buf cmd addr offset data n wkc 2 = _
    unfold encoded
    simp (disch := omega) only [if_neg, if_pos, if_true]
    omega
  · show encoded buf cmd addr offset data n wkc 3 = _
    unfold encoded
    simp (disch := omega) only [if_neg, if_pos, if_true]
  · show encoded buf cmd addr offset data n wkc 4 = _
    unfold encoded
    simp (disch := omega) only [if_neg, if_pos, if_true]
  · show encoded buf cmd addr offset data n wkc 5 = _
    unfold encoded
    simp (disch := omega) only [if_neg, if_pos, if_true]
    omega
  · show encoded buf cmd addr offset data n wkc 6 = _
    unfold encoded
    simp (disch := omega) only [if_neg, if_pos, if_true]
  · show encoded buf cmd addr offset data n wkc 7 = _
    unfold encoded
    simp (disch := omega) only [if_neg, if_pos, if_true]
    omega
  · show le16 (encoded buf cmd addr offset data n wkc) 8 >>> 11 = 0
    rw [hle, Nat.shiftRight_eq_div_pow]
    exact Nat.div_eq_of_lt (by norm_num; omega)
  · show encoded buf cmd addr offset data n wkc 10 = _
    unfold encoded
    simp (disch := omega) only [if_neg, if_pos, if_true]
  · show encoded buf cmd addr offset data n wkc 11 = _
    unfold encoded
    simp (disch := omega) only [if_neg, if_pos, if_true]
  · show encoded buf cmd addr offset data n wkc 12 = _
    unfold encoded
    simp (disch := omega) only [if_neg, if_pos, if_true]
    rfl
  · show encoded buf cmd addr offset data n wkc 13 = _
    unfold encoded
    simp (disch := omega) only [if_neg, if_pos, if_true]
    rfl
  · show encoded buf cmd addr offset data n wkc 14 = _
    unfold encoded
    simp (disch := omega) only [if_neg, if_pos, if_true]
    rfl
  · show encoded buf cmd addr offset data n wkc 15 = _
    unfold encoded
    simp (disch := omega) only [if_neg, if_pos, if_true]
    rfl
  · intro i hi
    show encoded buf cmd addr offset data n wkc (16 + i) = _
    unfold encoded
    have e : 16 + i - 16 = i := by omega
    simp (disch := omega) only [if_neg, if_pos, if_true, e]
  · show encoded buf cmd addr offset data n wkc (n + 16) = _
    unfold encoded
    simp (disch := omega) only [if_neg, if_pos, if_true]
  · show encoded buf cmd addr offset data n wkc (n + 17) = _
    unfold encoded
    simp (disch := omega) only [if_neg, if_pos, if_true]
    omega
  · intro j hj
    show encoded buf cmd addr offset data n wkc j = _
    unfold encoded
    simp (disch := omega) only [if_neg, if_pos, if_true]
  · intro buf0 j hj
    have hr0 : EcatInject.build_frame buf0 cmd addr offset data n wkc
        = (encoded buf0 cmd addr offset data n wkc, n + 18) :=
      build_frame_eq buf0 cmd addr offset data n wkc hn
    rw [hr0]
    show encoded buf0 cmd addr offset data n wkc j = encoded buf cmd addr offset data n wkc j
    exact encoded_congr buf0 buf cmd addr offset data n wkc j hj

/-- C2, at the state-change frame of the DoS module: command 8, offset `0x0120`,
payload `[0x01, 0x00]`. -/
theorem build_frame_layout_witness :
    (EcatInject.build_frame (fun _ => 0) 8 0 0x0120 (some (ofList [0x01, 0x00])) 2 0).2 = 20 ∧
    (EcatInject.build_frame (fun _ => 0) 8 0 0x0120 (some (ofList [0x01, 0x00])) 2 0).1 2 = 8 ∧
    (EcatInject.build_frame (fun _ => 0) 8 0 0x0120 (some (ofList [0x01, 0x00])) 2 0).1 18 = 0 :=
  have h := build_frame_layout (fun _ => 0) 8 0 0x0120 (some (ofList [0x01, 0x00])) 2 0
    (by decide) (by decide) (by decide) (by decide) (by decide)
  ⟨h.1, h.2.2.2.2.1, h.2.2.2.2.2.2.2.2.2.2.2.2.2.2.2.2.2.2.2.2.2.1⟩

/-! ## Marker injection -/

/-- The low byte of `len_flags & 0xF800` is zero: stored in a byte cell, the mask
contributes nothing. -/
theorem or_F800_mod (x y : Nat) : ((x &&& 0xF800) ||| y) % 256 = y % 256 := by
  apply Nat.eq_of_testBit_eq
  intro i
  have h1 : (0xF800 : Nat) = 2 ^ 11 * 31 := by norm_num
  have h2 : (256 : Nat) = 2 ^ 8 := by norm_num
  rw [h1, h2]
  simp only [Nat.testBit_mod_two_pow, Nat.testBit_or, Nat.testBit_and, Nat.testBit_mul_pow_two]
  by_cases h : i < 8
  · have h3 : ¬ (11 ≤ i) := by omega
    simp [h, h3]
  · simp [h]

theorem hdr_len_lt (header : Nat) : hdr_len header < 2048 := by
  unfold hdr_len
  rw [and_7FF]
  omega

/-- When none of its guards fires, `inject_signature` returns `len + 4` and leaves the
bytes `injected frame len`. -/
theorem inject_signature_eq (frame : Buf) (len : Nat) (h14 : 14 ≤ len)
    (ht : hdr_type (le16 frame 0) = 1) (hl : 12 ≤ hdr_len (le16 frame 0))
    (hmax : len + 4 ≤ 1500) :
    EcatMitm.inject_signature frame len = (injected frame len, len + 4) := by
  have g1 : ¬ len < 14 := by omega
  have g2 : ¬ hdr_len (le16 frame 0) < 12 := by omega
  have g3 : ¬ len + 4 > 1500 := by omega
  have hL := hdr_len_lt (le16 frame 0)
  have e0 : (hdr_len (le16 frame 0) + 4) % 65536 = hdr_len (le16 frame 0) + 4 := by omega
  have e1 : (le16 frame 8 % 2048 + 4) % 65536 = le16 frame 8 % 2048 + 4 := by omega
  have e2 : (hdr_len (le16 frame 0) + 4) / 256 % 8 < 16 := by omega
  have e3 : ((hdr_len (le16 frame 0) + 4) / 256 % 8 + 1 * 16) % 256
      = (hdr_len (le16 frame 0) + 4) / 256 % 8 + 16 := by omega
  have e4 : (le16 frame 8 % 2048 + 4) / 256 % 8 % 256 = (le16 frame 8 % 2048 + 4) / 256 % 8 := by
    omega
  have k : 12 + 4 + (len - 12) = len + 4 := by omega
  simp only [EcatMitm.inject_signature, KRAKEN_SIG_LEN, g1, g2, g3, ht, if_false, ne_eq,
    not_true_eq_false, and_FF, and_7FF, and_07, shr_8, shl_4, e0, e1, or_mul_16 _ _ e2,
    or_F800_mod]
  refine Prod.ext ?_ rfl
  funext j
  show _ = injected frame len j
  unfold injected
  simp only [wr, memcpy, or_F800_mod, e3, e4, k, Nat.mod_mod, Nat.zero_add, Nat.reduceAdd]

/-- C3: when `14 ≤ len ≤ 1496`, the type nibble is 1 and the declared length is at
least 12, `inject_signature` returns `len + 4`, puts `KRKN` at offsets 12-15, moves
every byte from offset 12 on four places to the right and keeps the bytes at offsets
2-7 and 10-11. -/
theorem inject_signature_shifts (frame : Buf) (len : Nat) (h14 : 14 ≤ len) (hmax : len ≤ 1496)
    (ht : hdr_type (le16 frame 0) = 1) (hl : 12 ≤ hdr_len (le16 frame 0)) :
    (EcatMitm.inject_signature frame len).2 = len + 4 ∧
    (EcatMitm.inject_signature frame len).1 12 = 0x4B ∧
    (EcatMitm.inject_signature frame len).1 13 = 0x52 ∧
    (EcatMitm.inject_signature frame len).1 14 = 0x4B ∧
    (EcatMitm.inject_signature frame len).1 15 = 0x4E ∧
    (∀ i, i < len - 12 → (EcatMitm.inject_signature frame len).1 (16 + i) = frame (12 + i)) ∧
    (∀ j, (2 ≤ j ∧ j ≤ 7) ∨ j = 10 ∨ j = 11 →
      (EcatMitm.inject_signature frame len).1 j = frame j) := by
  rw [inject_signature_eq frame len h14 ht hl (by omega)]
  refine ⟨rfl, ?_, ?_, ?_, ?_, ?_, ?_⟩
  · show injected frame len 12 = _
    unfold injected
    simp (disch := omega) only [if_neg, if_pos, if_true]
    rfl
  · show injected frame len 13 = _
    unfold injected
    simp (disch := omega) only [if_neg, if_pos, if_true]
    rfl
  · show injected frame len 14 = _
    unfold injected
    simp (disch := omega) only [if_neg, if_pos, if_true]
    rfl
  · show injected frame len 15 = _
    unfold injected
    simp (disch := omega) only [if_neg, if_pos, if_true]
    rfl
  · intro i hi
    show injected frame len (16 + i) = _
    unfold injected
    have e : 16 + i - 16 = i := by omega
    simp (disch := omega) only [if_neg, if_pos, if_true, e]
  · intro j hj
    show injected frame len j = _
    unfold injected
    simp (disch := omega) only [if_neg, if_pos, if_true]

/-- C3 at a 16-byte sub-frame: the result is 20 bytes long and the marker starts at
offset 12. -/
theorem inject_signature_shifts_witness :
    (EcatMitm.inject_signature frame_more_follows 16).2 = 20 ∧
    (EcatMitm.inject_signature frame_more_follows 16).1 12 = 0x4B ∧
    (EcatMitm.inject_signature frame_more_follows 16).1 (16 + 1) = frame_more_follows (12 + 1) :=
  have h := inject_signature_shifts frame_more_follows 16 (by decide) (by decide)
    (by decide) (by decide)
  ⟨h.1, h.2.1, h.2.2.2.2.2.1 1 (by decide)⟩

theorem injected_8 (frame : Buf) (len : Nat) :
    injected frame len 8 = (le16 frame 8 % 2048 + 4) % 256 := by
  unfold injected
  simp (disch := omega) only [if_neg, if_pos, if_true]

theorem injected_9 (frame : Buf) (len : Nat) :
    injected frame len (8 + 1) = (le16 frame 8 % 2048 + 4) / 256 % 8 := by
  unfold injected
  simp (disch := omega) only [if_neg, if_pos, if_true]

theorem injected_0 (frame : Buf) (len : Nat) :
    injected frame len 0 = (hdr_len (le16 frame 0) + 4) % 256 := by
  unfold injected
  simp (disch := omega) only [if_neg, if_pos, if_true]

theorem injected_1 (frame : Buf) (len : Nat) :
    injected frame len (0 + 1) = (hdr_len (le16 frame 0) + 4) / 256 % 8 + 16 := by
  unfold injected
  simp (disch := omega) only [if_neg, if_pos, if_true]

/-- The inner payload-length field after the injection, as a 16-bit value. -/
theorem injected_len_flags (frame : Buf) (len : Nat) :
    le16 (injected frame len) 8 = (le16 frame 8 % 2048 + 4) % 2048 := by
  rw [le16_eq _ _ (by rw [injected_8]; omega) (by rw [injected_9]; omega), injected_8,
    injected_9]
  omega

/-- The outer header after the injection, as a 16-bit value. -/
theorem injected_header (frame : Buf) (len : Nat) :
    le16 (injected frame len) 0 = (hdr_len (le16 frame 0) + 4) % 2048 + 4096 := by
  rw [le16_eq _ _ (by rw [injected_0]; omega) (by rw [injected_1]; omega), injected_0,
    injected_1]
  omega

/-- C4 as stated fails: with an inner payload-length field of `0x07FF` the injection is
performed, yet the low 11 bits of the rewritten field are 3, not 2047 + 4. -/
theorem inject_signature_data_len_counterexample :
    14 ≤ 16 ∧ 16 ≤ 1496 ∧ hdr_type (le16 frame_full_data_len 0) = 1 ∧
    12 ≤ hdr_len (le16 frame_full_data_len 0) ∧
    (le16 frame_full_data_len 8 &&& 0x7FF) = 2047 ∧
    (le16 (EcatMitm.inject_signature frame_full_data_len 16).1 8 &&& 0x7FF) = 3 ∧
    ¬ ((le16 (EcatMitm.inject_signature frame_full_data_len 16).1 8 &&& 0x7FF)
          = (le16 frame_full_data_len 8 &&& 0x7FF) + 4 ∧
        le16 (EcatMitm.inject_signature frame_full_data_len 16).1 8 >>> 11
          = le16 frame_full_data_len 8 >>> 11) := by
  decide

/-- C4, amended: when the injection is performed, the low 11 bits of the inner
payload-length field (bytes 8-9, little-endian) are the input's low 11 bits plus 4,
reduced modulo 2048; they are the input's low 11 bits plus 4 whenever that sum fits
in 11 bits. -/
theorem inject_signature_data_len (frame : Buf) (len : Nat) (h14 : 14 ≤ len)
    (hmax : len ≤ 1496) (ht : hdr_type (le16 frame 0) = 1)
    (hl : 12 ≤ hdr_len (le16 frame 0)) :
    (le16 (EcatMitm.inject_signature frame len).1 8 &&& 0x7FF)
        = ((le16 frame 8 &&& 0x7FF) + 4) % 2048 ∧
    ((le16 frame 8 &&& 0x7FF) + 4 < 2048 →
      (le16 (EcatMitm.inject_signature frame len).1 8 &&& 0x7FF)
        = (le16 frame 8 &&& 0x7FF) + 4) := by
  rw [inject_signature_eq frame len h14 ht hl (by omega)]
  show (le16 (injected frame len) 8 &&& 0x7FF) = _ ∧ (_ → (le16 (injected frame len) 8 &&& 0x7FF) = _)
  rw [injected_len_flags, and_7FF, and_7FF]
  omega

/-- C4, amended, at a sub-frame with payload length 2: the rewritten field reads 6. -/
theorem inject_signature_data_len_witness :
    (le16 (EcatMitm.inject_signature frame_more_follows 16).1 8 &&& 0x7FF)
        = ((le16 frame_more_follows 8 &&& 0x7FF) + 4) % 2048 ∧
    (le16 (EcatMitm.inject_signature frame_more_follows 16).1 8 &&& 0x7FF) = 6 :=
  have h := inject_signature_data_len frame_more_follows 16 (by decide) (by decide)
    (by decide) (by decide)
  ⟨h.1, h.2 (by decide)⟩

/-- The reserved bits of the inner payload-length field are not carried over: byte 9
of the result holds only the three high bits of the new length, so the five high bits
of the rewritten 16-bit field are zero whatever the input held there. -/
theorem inject_signature_reserved_bits (frame : Buf) (len : Nat) (h14 : 14 ≤ len)
    (hmax : len ≤ 1496) (ht : hdr_type (le16 frame 0) = 1)
    (hl : 12 ≤ hdr_len (le16 frame 0)) :
    le16 (EcatMitm.inject_signature frame len).1 8 >>> 11 = 0 := by
  rw [inject_signature_eq frame len h14 ht hl (by omega)]
  show le16 (injected frame len) 8 >>> 11 = 0
  rw [injected_len_flags, Nat.shiftRight_eq_div_pow]
  exact Nat.div_eq_of_lt (by norm_num; omega)

/-- The reserved bits at a concrete sub-frame: the input field `0x8002` has high five
bits 16, the rewritten field has high five bits 0. -/
theorem inject_signature_reserved_bits_lost :
    le16 frame_more_follows 8 >>> 11 = 16 ∧
    le16 (EcatMitm.inject_signature frame_more_follows 16).1 8 >>> 11 = 0 := by
  decide

/-- C5 as stated fails: with a declared length of 2047 the injection is performed, yet
the rewritten header declares length 3, not 2047 + 4. -/
theorem inject_signature_header_counterexample :
    14 ≤ 16 ∧ 16 ≤ 1496 ∧ hdr_type (le16 frame_full_frame_len 0) = 1 ∧
    hdr_len (le16 frame_full_frame_len 0) = 2047 ∧
    hdr_len (le16 (EcatMitm.inject_signature frame_full_frame_len 16).1 0) = 3 ∧
    ¬ (hdr_type (le16 (EcatMitm.inject_signature frame_full_frame_len 16).1 0) = 1 ∧
        hdr_len (le16 (EcatMitm.inject_signature frame_full_frame_len 16).1 0)
          = hdr_len (le16 frame_full_frame_len 0) + 4) := by
  decide

/-- C5, amended: when the injection is performed, the outer header of the result
decodes to the type nibble 1 and to the 11-bit length `(declared + 4) mod 2048`, which
is the declared length plus 4 whenever the declared length is at most 2043. -/
theorem inject_signature_header (frame : Buf) (len : Nat) (h14 : 14 ≤ len)
    (hmax : len ≤ 1496) (ht : hdr_type (le16 frame 0) = 1)
    (hl : 12 ≤ hdr_len (le16 frame 0)) :
    hdr_type (le16 (EcatMitm.inject_signature frame len).1 0) = 1 ∧
    hdr_len (le16 (EcatMitm.inject_signature frame len).1 0)
      = (hdr_len (le16 frame 0) + 4) % 2048 ∧
    (hdr_len (le16 frame 0) ≤ 2043 →
      hdr_len (le16 (EcatMitm.inject_signature frame len).1 0) = hdr_len (le16 frame 0) + 4) := by
  rw [inject_signature_eq frame len h14 ht hl (by omega)]
  show hdr_type (le16 (injected frame len) 0) = 1 ∧
    hdr_len (le16 (injected frame len) 0) = _ ∧ (_ → hdr_len (le16 (injected frame len) 0) = _)
  rw [injected_header]
  generalize hdr_len (le16 frame 0) = L
  unfold hdr_type hdr_len
  rw [shr_12, and_0F, and_7FF]
  omega

/-- C5, amended, at a sub-frame declaring length 14: the result declares 18, type 1. -/
theorem inject_signature_header_witness :
    hdr_type (le16 (EcatMitm.inject_signature frame_more_follows 16).1 0) = 1 ∧
    hdr_len (le16 (EcatMitm.inject_signature frame_more_follows 16).1 0) = 18 :=
  have h := inject_signature_header frame_more_follows 16 (by decide) (by decide)
    (by decide) (by decide)
  ⟨h.1, h.2.2 (by decide)⟩

/-- What `inject_signature` does when one of its guards fires: the buffer is left as
it was; the returned length is `len` for the three later guards and 0 for an input
shorter than 14 bytes. -/
theorem inject_signature_noop (frame : Buf) (len : Nat)
    (h : len < 14 ∨ hdr_type (le16 frame 0) ≠ 1 ∨ hdr_len (le16 frame 0) < 12 ∨
      len + 4 > 1500) :
    (EcatMitm.inject_signature frame len).1 = frame ∧
    (EcatMitm.inject_signature frame len).2 = if len < 14 then 0 else len := by
  unfold EcatMitm.inject_signature
  by_cases h1 : len < 14
  · simp only [h1, if_true, and_self]
  · by_cases h2 : hdr_type (le16 frame 0) ≠ 1
    · simp only [h1, h2, if_false, if_true, and_self, ne_eq, not_false_eq_true]
    · by_cases h3 : hdr_len (le16 frame 0) < 12
      · simp only [h1, h2, h3, if_false, if_true, and_self]
      · have h4 : len + KRAKEN_SIG_LEN > 1500 := by
          unfold KRAKEN_SIG_LEN
          omega
        simp only [h1, h2, h3, h4, if_false, if_true, and_self]

/-- C6 at a 5-byte sub-frame: `inject_signature` leaves the buffer as it was but
returns 0, not the input length 5. -/
theorem inject_signature_short_returns_zero :
    (EcatMitm.inject_signature frame_short 5).2 = 0 ∧
    (EcatMitm.inject_signature frame_short 5).2 ≠ 5 ∧
    (EcatMitm.inject_signature frame_short 5).1 = frame_short :=
  ⟨by decide, by decide, rfl⟩

/-! ## The mutation steps -/

theorem alter_wkc_unchanged (m : Buf) (n : Nat)
    (h : n ≤ 4 ∨ hdr_len (le16 m 0) ≤ 2 ∨ hdr_len (le16 m 0) > n - 2) :
    EcatMitm.alter_wkc m n = m := by
  unfold EcatMitm.alter_wkc
  by_cases h1 : n > 4
  · have h2 : ¬ (hdr_len (le16 m 0) > 2 ∧ hdr_len (le16 m 0) ≤ n - 2) := by omega
    simp only [h1, h2, if_true, if_false]
  · simp only [h1, if_false]

theorem alter_wkc_changed (m : Buf) (n : Nat) (h1 : 4 < n) (h2 : 2 < hdr_len (le16 m 0))
    (h3 : hdr_len (le16 m 0) ≤ n - 2) :
    EcatMitm.alter_wkc m n
      = wr (wr m (hdr_len (le16 m 0)) 0xFF) (hdr_len (le16 m 0) + 1) 0x00 := by
  unfold EcatMitm.alter_wkc
  have h4 : n > 4 := h1
  have h5 : hdr_len (le16 m 0) > 2 ∧ hdr_len (le16 m 0) ≤ n - 2 := ⟨h2, h3⟩
  simp only [h4, h5, if_true, and_self]

/-- Overwriting the trailer of an encoded frame with `0xFF, 0x00` gives the encoding
with working counter `0x00FF`. -/
theorem encoded_set_trailer (buf : Buf) (c a o : Nat) (data : Option Buf) (n w : Nat) :
    wr (wr (encoded buf c a o data n w) (n + 16) 0xFF) (n + 16 + 1) 0x00
      = encoded buf c a o data n 0x00FF := by
  funext j
  unfold wr encoded
  by_cases h1 : j = n + 17
  · have h1b : j = n + 16 + 1 := by omega
    simp only [h1, h1b, if_true]
  · have h1b : ¬ j = n + 16 + 1 := by omega
    by_cases h2 : j = n + 16
    · simp only [h1, h1b, h2, if_true, if_false]
    · simp only [h1, h1b, h2, if_false]

/-- C8: the working-counter alteration changes nothing when the sub-frame has at most
4 bytes or its declared length `L` is at most 2 or exceeds `n - 2`; otherwise it sets
offsets `L` and `L + 1` to `0xFF` and `0x00` and changes nothing else. On a frame as
`build_frame` produces it, `n = L + 2`, these offsets are the trailing working-counter
bytes, and the altered frame is `build_frame` of the same command, address, offset and
payload with working counter `0x00FF`. -/
theorem alter_wkc_trailer (m : Buf) (n : Nat) (buf : Buf) (cmd addr offset : Nat)
    (data : Option Buf) (k wkc : Nat) (hk : k ≤ 1400) (hw : wkc < 65536) :
    (n ≤ 4 ∨ hdr_len (le16 m 0) ≤ 2 ∨ hdr_len (le16 m 0) > n - 2 →
      EcatMitm.alter_wkc m n = m) ∧
    (4 < n → 2 < hdr_len (le16 m 0) → hdr_len (le16 m 0) ≤ n - 2 →
      EcatMitm.alter_wkc m n (hdr_len (le16 m 0)) = 0xFF ∧
      EcatMitm.alter_wkc m n (hdr_len (le16 m 0) + 1) = 0x00 ∧
      ∀ j, j ≠ hdr_len (le16 m 0) → j ≠ hdr_len (le16 m 0) + 1 →
        EcatMitm.alter_wkc m n j = m j) ∧
    (EcatDos.build_frame buf cmd addr offset data k wkc).2
      = hdr_len (le16 (EcatDos.build_frame buf cmd addr offset data k wkc).1 0) + 2 ∧
    hdr_len (le16 (EcatDos.build_frame buf cmd addr offset data k wkc).1 0) = k + 16 ∧
    (EcatDos.build_frame buf cmd addr offset data k wkc).1 (k + 16) = wkc % 256 ∧
    (EcatDos.build_frame buf cmd addr offset data k wkc).1 (k + 16 + 1) = wkc / 256 ∧
    EcatMitm.alter_wkc (EcatDos.build_frame buf cmd addr offset data k wkc).1
        (EcatDos.build_frame buf cmd addr offset data k wkc).2
      = (EcatDos.build_frame buf cmd addr offset data k 0x00FF).1 := by
  have hL : hdr_len (le16 (encoded buf cmd addr offset data k wkc) 0) = k + 16 := by
    rw [encoded_header buf cmd addr offset data k wkc hk]
    unfold hdr_len
    rw [and_7FF]
    omega
  refine ⟨alter_wkc_unchanged m n, ?_, ?_⟩
  · intro h1 h2 h3
    rw [alter_wkc_changed m n h1 h2 h3]
    refine ⟨?_, ?_, ?_⟩
    · rw [wr_other _ _ _ _ (by omega), wr_same]
    · rw [wr_same]
    · intro j hj1 hj2
      rw [wr_other _ _ _ _ hj2, wr_other _ _ _ _ hj1]
  · rw [build_frame_eq buf cmd addr offset data k wkc hk,
      build_frame_eq buf cmd addr offset data k 0x00FF hk]
    show k + 18 = hdr_len (le16 (encoded buf cmd addr offset data k wkc) 0) + 2 ∧
      hdr_len (le16 (encoded buf cmd addr offset data k wkc) 0) = k + 16 ∧
      encoded buf cmd addr offset data k wkc (k + 16) = wkc % 256 ∧
      encoded buf cmd addr offset data k wkc (k + 16 + 1) = wkc / 256 ∧
      EcatMitm.alter_wkc (encoded buf cmd addr offset data k wkc) (k + 18)
        = encoded buf cmd addr offset data k 0x00FF
    refine ⟨by rw [hL], hL, ?_, ?_, ?_⟩
    · unfold encoded
      simp (disch := omega) only [if_neg, if_pos, if_true]
    · unfold encoded
      simp (disch := omega) only [if_neg, if_pos, if_true]
      omega
    · rw [alter_wkc_changed _ _ (by omega) (by rw [hL]; omega) (by rw [hL]; omega), hL]
      exact encoded_set_trailer buf cmd addr offset data k wkc

/-- The corruption loop, once it has fuel for every index up to 20, XORs exactly the
cells from `j` up to `min (ecat_len - 2) 20`. -/
theorem corrupt_loop_apply (ecat_len : Nat) :
    ∀ (fuel j : Nat) (m : Buf) (i : Nat), 20 ≤ j + fuel →
      EcatMitm.corrupt_loop ecat_len fuel j m i
        = if j ≤ i ∧ i < ecat_len - 2 ∧ i < 20 then (m i ^^^ 0xAA) % 256 else m i := by
  intro fuel
  induction fuel with
  | zero =>
    intro j m i hf
    have hc : ¬ (j ≤ i ∧ i < ecat_len - 2 ∧ i < 20) := by omega
    rw [if_neg hc]
    rfl
  | succ fuel ih =>
    intro j m i hf
    unfold EcatMitm.corrupt_loop
    by_cases hj : j < ecat_len - 2 ∧ j < 20
    · rw [if_pos hj, ih (j + 1) _ i (by omega)]
      by_cases hij : i = j
      · subst hij
        have hc1 : ¬ (i + 1 ≤ i ∧ i < ecat_len - 2 ∧ i < 20) := by omega
        have hc2 : i ≤ i ∧ i < ecat_len - 2 ∧ i < 20 := by omega
        rw [if_neg hc1, if_pos hc2, wr_same]
      · rw [wr_other _ _ _ _ hij]
        by_cases hc : j ≤ i ∧ i < ecat_len - 2 ∧ i < 20
        · have hc1 : j + 1 ≤ i ∧ i < ecat_len - 2 ∧ i < 20 := by omega
          rw [if_pos hc, if_pos hc1]
        · have hc1 : ¬ (j + 1 ≤ i ∧ i < ecat_len - 2 ∧ i < 20) := by omega
          rw [if_neg hc, if_neg hc1]
    · have hc : ¬ (j ≤ i ∧ i < ecat_len - 2 ∧ i < 20) := by omega
      rw [if_neg hj, if_neg hc]

theorem xor_AA_lt (x : Nat) (h : x < 256) : x ^^^ 0xAA < 256 :=
  Nat.xor_lt_two_pow (n := 8) h (by decide)

/-- C9: the payload corruption changes nothing when the sub-frame has at most 14
bytes; otherwise it XORs with `0xAA` exactly the cells at offsets `j` with
`12 ≤ j < min (n - 2) 20`, between one and eight of them, and leaves every other cell
as it was, the 12-byte header and the two trailer bytes among them. -/
theorem corrupt_data_spec (m : Buf) (n : Nat) :
    (n ≤ 14 → EcatMitm.corrupt_data m n = m) ∧
    (14 < n →
      (∀ j, 12 ≤ j → j < min (n - 2) 20 →
        EcatMitm.corrupt_data m n j = (m j ^^^ 0xAA) % 256 ∧
        (m j < 256 → EcatMitm.corrupt_data m n j = m j ^^^ 0xAA)) ∧
      (∀ j, j < 12 ∨ min (n - 2) 20 ≤ j → EcatMitm.corrupt_data m n j = m j) ∧
      (∀ j, j < 12 ∨ n - 2 ≤ j → EcatMitm.corrupt_data m n j = m j) ∧
      1 ≤ min (n - 2) 20 - 12 ∧ min (n - 2) 20 - 12 ≤ 8) := by
  refine ⟨?_, ?_⟩
  · intro h
    unfold EcatMitm.corrupt_data
    rw [if_neg (by omega)]
  · intro h
    have hd : ∀ j, EcatMitm.corrupt_data m n j
        = if 12 ≤ j ∧ j < n - 2 ∧ j < 20 then (m j ^^^ 0xAA) % 256 else m j := by
      intro j
      unfold EcatMitm.corrupt_data
      rw [if_pos h]
      exact corrupt_loop_apply n 8 12 m j (by omega)
    refine ⟨?_, ?_, ?_, by omega, by omega⟩
    · intro j h1 h2
      have hc : 12 ≤ j ∧ j < n - 2 ∧ j < 20 := by omega
      rw [hd j, if_pos hc]
      exact ⟨rfl, fun hb => Nat.mod_eq_of_lt (xor_AA_lt (m j) hb)⟩
    · intro j hj
      have hc : ¬ (12 ≤ j ∧ j < n - 2 ∧ j < 20) := by omega
      rw [hd j, if_neg hc]
    · intro j hj
      have hc : ¬ (12 ≤ j ∧ j < n - 2 ∧ j < 20) := by omega
      rw [hd j, if_neg hc]

theorem corrupt_loop_fuel (ecat_len fuel : Nat) (m : Buf) (h : 8 ≤ fuel) :
    EcatMitm.corrupt_loop ecat_len fuel 12 m = EcatMitm.corrupt_loop ecat_len 8 12 m := by
  funext i
  rw [corrupt_loop_apply ecat_len fuel 12 m i (by omega),
    corrupt_loop_apply ecat_len 8 12 m i (by omega)]

/-- C9 at a 16-byte sub-frame: offsets 12 and 13 are XORed, the trailer is kept. -/
theorem corrupt_data_spec_witness :
    EcatMitm.corrupt_data frame_more_follows 16 12 = frame_more_follows 12 ^^^ 0xAA ∧
    EcatMitm.corrupt_data frame_more_follows 16 13 = frame_more_follows 13 ^^^ 0xAA ∧
    EcatMitm.corrupt_data frame_more_follows 16 14 = frame_more_follows 14 ∧
    EcatMitm.corrupt_data frame_more_follows 5 = frame_more_follows :=
  have h := (corrupt_data_spec frame_more_follows 16).2 (by decide)
  ⟨(h.1 12 (by decide) (by decide)).2 (by decide),
    (h.1 13 (by decide) (by decide)).2 (by decide),
    h.2.1 14 (by decide),
    (corrupt_data_spec frame_more_follows 5).1 (by decide)⟩

/-- C8 at the flood frame of the DoS module (command 7, payload `[0, 0]`, working
counter 0): the alteration turns it into the same frame with working counter `0x00FF`. -/
theorem alter_wkc_trailer_witness :
    EcatMitm.alter_wkc (EcatDos.build_frame zeroed 7 0 0 (some (ofList [0x00, 0x00])) 2 0).1
        (EcatDos.build_frame zeroed 7 0 0 (some (ofList [0x00, 0x00])) 2 0).2
      = (EcatDos.build_frame zeroed 7 0 0 (some (ofList [0x00, 0x00])) 2 0x00FF).1 ∧
    EcatMitm.alter_wkc frame_short 5 = frame_short :=
  have h := alter_wkc_trailer frame_short 5 zeroed 7 0 0 (some (ofList [0x00, 0x00])) 2 0
    (by decide) (by decide)
  ⟨h.2.2.2.2.2.2, h.1 (by decide)⟩

/-! ## The strategies on one captured entry -/

/-- Marker injection never touches the command byte. -/
theorem inject_signature_cmd (f : Buf) (len : Nat) :
    (EcatMitm.inject_signature f len).1 2 = f 2 := by
  by_cases h : len < 14 ∨ hdr_type (le16 f 0) ≠ 1 ∨ hdr_len (le16 f 0) < 12 ∨ len + 4 > 1500
  · rw [(inject_signature_noop f len h).1]
  · rw [inject_signature_eq f len (by omega) (by omega) (by omega) (by omega)]
    show injected f len 2 = f 2
    unfold injected
    simp (disch := omega) only [if_neg, if_pos, if_true]

/-- Two sub-frames that agree on their first `len` bytes except at offset 2 give the
same returned length and results that agree, except at offset 2, on the bytes handed
on and on the first `len` bytes. -/
theorem inject_signature_congr (f g : Buf) (len : Nat)
    (hfg : ∀ i, i < len → i ≠ 2 → f i = g i) :
    (EcatMitm.inject_signature f len).2 = (EcatMitm.inject_signature g len).2 ∧
    ∀ i, i < (EcatMitm.inject_signature g len).2 ∨ i < len → i ≠ 2 →
      (EcatMitm.inject_signature f len).1 i = (EcatMitm.inject_signature g len).1 i := by
  by_cases h14 : len < 14
  · have hf := inject_signature_noop f len (Or.inl h14)
    have hg := inject_signature_noop g len (Or.inl h14)
    rw [hf.1, hf.2, hg.1, hg.2, if_pos h14]
    refine ⟨rfl, ?_⟩
    intro i hi hi2
    exact hfg i (by omega) hi2
  · have h0 : le16 f 0 = le16 g 0 := by
      unfold le16
      rw [hfg 0 (by omega) (by omega), hfg (0 + 1) (by omega) (by omega)]
    have h8 : le16 f 8 = le16 g 8 := by
      unfold le16
      rw [hfg 8 (by omega) (by omega), hfg (8 + 1) (by omega) (by omega)]
    by_cases h : hdr_type (le16 f 0) ≠ 1 ∨ hdr_len (le16 f 0) < 12 ∨ len + 4 > 1500
    · have hf := inject_signature_noop f len (Or.inr h)
      have hg := inject_signature_noop g len (Or.inr (h0 ▸ h))
      rw [hf.1, hf.2, hg.1, hg.2, if_neg h14]
      refine ⟨rfl, ?_⟩
      intro i hi hi2
      exact hfg i (by omega) hi2
    · have hf := inject_signature_eq f len (by omega) (by omega) (by omega) (by omega)
      have hg := inject_signature_eq g len (by omega) (by rw [← h0]; omega)
        (by rw [← h0]; omega) (by omega)
      rw [hf, hg]
      refine ⟨rfl, ?_⟩
      intro i hi hi2
      show injected f len i = injected g len i
      have hi4 : i < len + 4 := by
        have : i < (injected g len, len + 4).2 ∨ i < len := hi
        have e : (injected g len, len + 4).2 = len + 4 := rfl
        omega
      unfold injected
      rw [h0, h8]
      repeat' (refine ite_else_congr _ _ _ _ (fun _ => ?_))
      by_cases hc : 16 ≤ i ∧ i < len + 4
      · rw [if_pos hc, if_pos hc]
        exact hfg _ (by omega) (by omega)
      · rw [if_neg hc, if_neg hc]
        exact hfg i (by omega) hi2

/-- The stripped sub-frame: the entry's bytes after the 14-byte link header. -/
theorem stripped_apply (m : Buf) (e : EcatMitm.captured_frame_t) (i : Nat)
    (h : i < e.len - 14) : memcpy m 0 e.data 14 (e.len - 14) i = e.data (14 + i) := by
  rw [memcpy_inside _ _ _ _ _ _ (by omega) (by omega)]
  rfl

theorem substitute_cmd_other (m : Buf) (n j : Nat) (h : j ≠ 2) :
    EcatMitm.substitute_cmd m n j = m j := by
  unfold EcatMitm.substitute_cmd
  by_cases hn : n > 2
  · by_cases hc : m 2 = 1 ∨ m 2 = 4 ∨ m 2 = 7 ∨ m 2 = 10
    · simp only [hn, hc, if_true]
      exact wr_other _ _ _ _ h
    · simp only [hn, hc, if_true, if_false]
  · simp only [hn, if_false]

theorem substitute_cmd_at (m : Buf) (n : Nat) (h : 2 < n) :
    EcatMitm.substitute_cmd m n 2
      = if m 2 = 1 ∨ m 2 = 4 ∨ m 2 = 7 ∨ m 2 = 10 then m 2 + 1 else m 2 := by
  unfold EcatMitm.substitute_cmd
  have hn : n > 2 := h
  simp only [hn, if_true]
  by_cases hc : m 2 = 1 ∨ m 2 = 4 ∨ m 2 = 7 ∨ m 2 = 10
  · rw [if_pos hc, if_pos hc, wr_same]
    omega
  · rw [if_neg hc, if_neg hc]

/-- C7: for an entry longer than 16 bytes, command substitution and replay hand the
same length to send, and the same bytes except at sub-frame offset 2; there replay has
the entry's command byte, and command substitution has that byte plus one when it is
one of the read codes 1, 4, 7, 10 and that byte itself otherwise. -/
theorem cmd_substitution_vs_replay (m1 m2 : Buf) (e : EcatMitm.captured_frame_t)
    (h : 16 < e.len) :
    ∃ fc fr l,
      EcatMitm.cmd_substitution_body m1 e = some (fc, l) ∧
      EcatMitm.replay_body m2 e = some (fr, l) ∧
      (∀ i, i < l ∨ i < e.len - 14 → i ≠ 2 → fc i = fr i) ∧
      fr 2 = e.data 16 ∧
      fc 2 = if e.data 16 = 1 ∨ e.data 16 = 4 ∨ e.data 16 = 7 ∨ e.data 16 = 10
        then e.data 16 + 1 else e.data 16 := by
  have hlen : e.len > 14 := by omega
  have hlen2 : ¬ e.len ≤ 14 := by omega
  have hs1 : memcpy m1 0 e.data 14 (e.len - 14) 2 = e.data 16 :=
    stripped_apply m1 e 2 (by omega)
  have hs2 : memcpy m2 0 e.data 14 (e.len - 14) 2 = e.data 16 :=
    stripped_apply m2 e 2 (by omega)
  have hagree : ∀ i, i < e.len - 14 → i ≠ 2 →
      EcatMitm.substitute_cmd (memcpy m1 0 e.data 14 (e.len - 14)) (e.len - 14) i
        = memcpy m2 0 e.data 14 (e.len - 14) i := by
    intro i hi hi2
    rw [substitute_cmd_other _ _ _ hi2, stripped_apply m1 e i hi, stripped_apply m2 e i hi]
  have hc := inject_signature_congr _ _ (e.len - 14) hagree
  refine ⟨_, _, _, ?_, ?_, hc.2, ?_, ?_⟩
  · unfold EcatMitm.cmd_substitution_body
    simp only [hlen2, if_false]
    exact congrArg some (Prod.ext rfl hc.1)
  · unfold EcatMitm.replay_body
    simp only [hlen, if_true]
  · rw [inject_signature_cmd, hs2]
  · rw [inject_signature_cmd, substitute_cmd_at _ _ (by omega), hs1]

/-- C7 at a 30-byte entry carrying command 7. -/
theorem cmd_substitution_vs_replay_witness :
    ∃ fc fr l,
      EcatMitm.cmd_substitution_body zeroed entry_read = some (fc, l) ∧
      EcatMitm.replay_body zeroed entry_read = some (fr, l) ∧
      (∀ i, i < l ∨ i < entry_read.len - 14 → i ≠ 2 → fc i = fr i) ∧
      fr 2 = entry_read.data 16 ∧
      fc 2 = if entry_read.data 16 = 1 ∨ entry_read.data 16 = 4 ∨ entry_read.data 16 = 7 ∨
          entry_read.data 16 = 10
        then entry_read.data 16 + 1 else entry_read.data 16 :=
  cmd_substitution_vs_replay zeroed zeroed entry_read (by decide)

/-- The two strategies evaluated on the 30-byte entry: the 20 bytes handed to send. -/
theorem cmd_substitution_read_example :
    (EcatMitm.replay_body zeroed entry_read).map (fun r => bytes r.1 r.2)
      = some [0x12, 0x10, 0x07, 0x01, 0x00, 0x00, 0x00, 0x00, 0x06, 0x00, 0x00, 0x00,
          0x4B, 0x52, 0x4B, 0x4E, 0x11, 0x22, 0x00, 0x00] ∧
    (EcatMitm.cmd_substitution_body zeroed entry_read).map (fun r => bytes r.1 r.2)
      = some [0x12, 0x10, 0x08, 0x01, 0x00, 0x00, 0x00, 0x00, 0x06, 0x00, 0x00, 0x00,
          0x4B, 0x52, 0x4B, 0x4E, 0x11, 0x22, 0x00, 0x00] := by
  decide

/-- For a sub-frame of at least 14 bytes on which marker injection does not apply,
each strategy whose mutation changes nothing hands to send the stripped sub-frame
itself: the entry's bytes after the link header, with length `len - 14`. -/
theorem strategies_forward_unmodified (m : Buf) (e : EcatMitm.captured_frame_t)
    (h28 : 28 ≤ e.len)
    (hno : hdr_type (le16 e.data 14) ≠ 1 ∨ hdr_len (le16 e.data 14) < 12 ∨
      e.len - 14 + 4 > 1500) :
    EcatMitm.replay_body m e = some (memcpy m 0 e.data 14 (e.len - 14), e.len - 14) ∧
    (EcatMitm.alter_wkc (memcpy m 0 e.data 14 (e.len - 14)) (e.len - 14)
        = memcpy m 0 e.data 14 (e.len - 14) →
      EcatMitm.modified_wkc_body m e
        = some (memcpy m 0 e.data 14 (e.len - 14), e.len - 14)) ∧
    (EcatMitm.corrupt_data (memcpy m 0 e.data 14 (e.len - 14)) (e.len - 14)
        = memcpy m 0 e.data 14 (e.len - 14) →
      EcatMitm.corrupted_data_body m e
        = some (memcpy m 0 e.data 14 (e.len - 14), e.len - 14)) ∧
    (EcatMitm.substitute_cmd (memcpy m 0 e.data 14 (e.len - 14)) (e.len - 14)
        = memcpy m 0 e.data 14 (e.len - 14) →
      EcatMitm.cmd_substitution_body m e
        = some (memcpy m 0 e.data 14 (e.len - 14), e.len - 14)) ∧
    ∀ i, i < e.len - 14 → memcpy m 0 e.data 14 (e.len - 14) i = e.data (14 + i) := by
  have hlen : e.len > 14 := by omega
  have hlen2 : ¬ e.len ≤ 14 := by omega
  have h0 : le16 (memcpy m 0 e.data 14 (e.len - 14)) 0 = le16 e.data 14 := by
    unfold le16
    rw [stripped_apply m e 0 (by omega), stripped_apply m e (0 + 1) (by omega)]
  have hinj : EcatMitm.inject_signature (memcpy m 0 e.data 14 (e.len - 14)) (e.len - 14)
      = (memcpy m 0 e.data 14 (e.len - 14), e.len - 14) := by
    have hn := inject_signature_noop (memcpy m 0 e.data 14 (e.len - 14)) (e.len - 14)
      (Or.inr (by rw [h0]; exact hno))
    have h14 : ¬ e.len - 14 < 14 := by omega
    rw [if_neg h14] at hn
    exact Prod.ext hn.1 hn.2
  refine ⟨?_, ?_, ?_, ?_, fun i hi => stripped_apply m e i hi⟩
  · unfold EcatMitm.replay_body
    simp only [hlen, if_true, hinj]
  · intro hm
    unfold EcatMitm.modified_wkc_body
    simp only [hlen2, if_false, hm, hinj]
  · intro hm
    unfold EcatMitm.corrupted_data_body
    simp only [hlen2, if_false, hm, hinj]
  · intro hm
    unfold EcatMitm.cmd_substitution_body
    simp only [hlen2, if_false, hm, hinj]

/-- C10 at a 19-byte captured entry (sub-frame of 5 bytes, command 8): none of the four
mutations changes a byte of the sub-frame and marker injection does not apply, yet
every strategy hands length 0 to send, not the sub-frame length 5. -/
theorem short_entry_sent_with_length_zero :
    16 < entry_short.len ∧ entry_short.len ≤ 1500 ∧
    hdr_type (le16 entry_short.data 14) = 1 ∧
    entry_short.len - 14 = 5 ∧
    (∀ i, i < 5 →
      EcatMitm.alter_wkc (memcpy zeroed 0 entry_short.data 14 5) 5 i = entry_short.data (14 + i) ∧
      EcatMitm.corrupt_data (memcpy zeroed 0 entry_short.data 14 5) 5 i
        = entry_short.data (14 + i) ∧
      EcatMitm.substitute_cmd (memcpy zeroed 0 entry_short.data 14 5) 5 i
        = entry_short.data (14 + i)) ∧
    (EcatMitm.replay_body zeroed entry_short).map Prod.snd = some 0 ∧
    (EcatMitm.modified_wkc_body zeroed entry_short).map Prod.snd = some 0 ∧
    (EcatMitm.corrupted_data_body zeroed entry_short).map Prod.snd = some 0 ∧
    (EcatMitm.cmd_substitution_body zeroed entry_short).map Prod.snd = some 0 := by
  decide

/-! ## Marker injection against the encoder -/

/-- The encoder's closed form for every payload length that fits the 11-bit fields. -/
theorem build_frame_eq_wide (buf : Buf) (c a o : Nat) (data : Option Buf) (n w : Nat)
    (hn : n ≤ 2031) :
    EcatDos.build_frame buf c a o data n w = (encoded buf c a o data n w, n + 18) := by
  have h1 : (n + 4) % 65536 = n + 4 := by omega
  have h2 : (10 + (n + 4) + 2) % 65536 = n + 16 := by omega
  have h3 : (n + 16) % 2048 < 4096 := by omega
  simp only [EcatDos.build_frame, KRAKEN_SIG_LEN, ECAT_TYPE, h1, h2, and_FF, and_7FF, shl_12,
    shr_8, or_mul_4096 _ _ h3]
  refine Prod.ext ?_ (by show 2 + (n + 16) = n + 18; omega)
  funext j
  show _ = encoded buf c a o data n w j
  unfold encoded
  have e2 : (n + 4) % 2048 / 256 % 256 % 256 = (n + 4) / 256 := by omega
  have e3 : (n + 4) % 2048 % 256 % 256 = (n + 4) % 256 := by omega
  have e4 : ((n + 16) % 2048 + 1 * 4096) % 65536 / 256 % 256 % 256 = (n + 16) / 256 + 16 := by
    omega
  have e5 : ((n + 16) % 2048 + 1 * 4096) % 65536 % 256 % 256 = (n + 16) % 256 := by omega
  have k1 : 12 + (n + 4) + 1 = n + 17 := by omega
  have k2 : 12 + (n + 4) = n + 16 := by omega
  cases data with
  | none =>
    simp only [ite_memset]
    simp only [wr, memcpy, memset, e2, e3, e4, e5, k1, k2,
        Nat.mod_mod, Nat.zero_mod, Nat.one_mod, Nat.zero_add, Nat.reduceAdd]
  | some d =>
    simp only [ite_memcpy]
    simp only [wr, memcpy, memset, e2, e3, e4, e5, k1, k2,
        Nat.mod_mod, Nat.zero_mod, Nat.one_mod, Nat.zero_add, Nat.reduceAdd]

theorem encoded_header_wide (buf : Buf) (c a o : Nat) (data : Option Buf) (n w : Nat)
    (hn : n ≤ 2031) : le16 (encoded buf c a o data n w) 0 = n + 16 + 4096 := by
  have h0 : encoded buf c a o data n w 0 = (n + 16) % 256 := by
    unfold encoded
    simp (disch := omega) only [if_neg, if_pos, if_true]
  have h1 : encoded buf c a o data n w (0 + 1) = (n + 16) / 256 + 16 := by
    unfold encoded
    simp (disch := omega) only [if_neg, if_pos, if_true]
  rw [le16_eq _ _ (by rw [h0]; omega) (by rw [h1]; omega), h0, h1]
  omega

theorem encoded_len_flags (buf : Buf) (c a o : Nat) (data : Option Buf) (n w : Nat)
    (hn : n ≤ 2031) : le16 (encoded buf c a o data n w) 8 = n + 4 := by
  have h8 : encoded buf c a o data n w 8 = (n + 4) % 256 := by
    unfold encoded
    simp (disch := omega) only [if_neg, if_pos, if_true]
  have h9 : encoded buf c a o data n w (8 + 1) = (n + 4) / 256 := by
    unfold encoded
    simp (disch := omega) only [if_neg, if_pos, if_true]
  rw [le16_eq _ _ (by rw [h8]; omega) (by rw [h9]; omega), h8, h9]
  omega

theorem encoded_sig (buf : Buf) (c a o : Nat) (data : Option Buf) (n w j : Nat)
    (h1 : 12 ≤ j) (h2 : j < 16) : encoded buf c a o data n w j = KRAKEN_SIG (j - 12) := by
  unfold encoded
  simp (disch := omega) only [if_neg, if_pos, if_true]

theorem encoded_data (buf : Buf) (c a o : Nat) (d : Buf) (n w j : Nat)
    (h1 : 16 ≤ j) (h2 : j < 16 + n) : encoded buf c a o (some d) n w j = d (j - 16) := by
  unfold encoded
  simp (disch := omega) only [if_neg, if_pos, if_true]

theorem encoded_wkc_lo (buf : Buf) (c a o : Nat) (data : Option Buf) (n w : Nat) :
    encoded buf c a o data n w (n + 16) = w % 256 := by
  unfold encoded
  simp (disch := omega) only [if_neg, if_pos, if_true]

theorem encoded_wkc_hi (buf : Buf) (c a o : Nat) (data : Option Buf) (n w : Nat) :
    encoded buf c a o data n w (n + 17) = w / 256 % 256 := by
  unfold encoded
  simp (disch := omega) only [if_neg, if_pos, if_true]

theorem encoded_0 (buf : Buf) (c a o : Nat) (data : Option Buf) (n w : Nat) :
    encoded buf c a o data n w 0 = (n + 16) % 256 := by
  unfold encoded
  simp (disch := omega) only [if_neg, if_pos, if_true]

theorem encoded_1 (buf : Buf) (c a o : Nat) (data : Option Buf) (n w : Nat) :
    encoded buf c a o data n w 1 = (n + 16) / 256 + 16 := by
  unfold encoded
  simp (disch := omega) only [if_neg, if_pos, if_true]

theorem encoded_8 (buf : Buf) (c a o : Nat) (data : Option Buf) (n w : Nat) :
    encoded buf c a o data n w 8 = (n + 4) % 256 := by
  unfold encoded
  simp (disch := omega) only [if_neg, if_pos, if_true]

theorem encoded_9 (buf : Buf) (c a o : Nat) (data : Option Buf) (n w : Nat) :
    encoded buf c a o data n w 9 = (n + 4) / 256 := by
  unfold encoded
  simp (disch := omega) only [if_neg, if_pos, if_true]

/-- The fixed part of the sub-header does not depend on the payload. -/
theorem encoded_fixed (buf buf2 : Buf) (c a o : Nat) (d d2 : Option Buf) (n n2 w j : Nat)
    (h : (2 ≤ j ∧ j ≤ 7) ∨ j = 10 ∨ j = 11) :
    encoded buf c a o d n w j = encoded buf2 c a o d2 n2 w j := by
  have hreg : j = 2 ∨ j = 3 ∨ j = 4 ∨ j = 5 ∨ j = 6 ∨ j = 7 ∨ j = 10 ∨ j = 11 := by omega
  unfold encoded
  rcases hreg with h | h | h | h | h | h | h | h <;> subst h <;>
    simp (disch := omega) only [if_neg, if_pos, if_true]

/-- Injecting the marker into an encoded frame gives, byte for byte, the encoding of
the payload with the marker put in front. -/
theorem injected_encoded (buf buf2 : Buf) (c a o : Nat) (p : Buf) (n w j : Nat)
    (hn : n ≤ 1400) (hj : j < n + 22) :
    injected (encoded buf c a o (some p) n w) (n + 18) j
      = encoded buf2 c a o (some (with_marker p)) (n + 4) w j := by
  have hL : hdr_len (le16 (encoded buf c a o (some p) n w) 0) = n + 16 := by
    rw [encoded_header_wide buf c a o (some p) n w (by omega)]
    unfold hdr_len
    rw [and_7FF]
    omega
  have hF := encoded_len_flags buf c a o (some p) n w (by omega)
  have hreg : j = 0 ∨ j = 1 ∨ j = 8 ∨ j = 9 ∨ ((2 ≤ j ∧ j ≤ 7) ∨ j = 10 ∨ j = 11) ∨
      (12 ≤ j ∧ j < 16) ∨ (16 ≤ j ∧ j < 20) ∨ (20 ≤ j ∧ j < n + 20) ∨
      j = n + 20 ∨ j = n + 21 := by omega
  unfold injected
  rw [hL, hF]
  generalize hE : encoded buf c a o (some p) n w = E
  rcases hreg with h | h | h | h | h | h | h | h | h | h
  · subst h
    simp (disch := omega) only [if_neg, if_pos, if_true]
    rw [encoded_0]
  · subst h
    simp (disch := omega) only [if_neg, if_pos, if_true]
    rw [encoded_1]
    all_goals omega
  · subst h
    simp (disch := omega) only [if_neg, if_pos, if_true]
    rw [encoded_8]
    all_goals omega
  · subst h
    simp (disch := omega) only [if_neg, if_pos, if_true]
    rw [encoded_9]
    all_goals omega
  · simp (disch := omega) only [if_neg, if_pos, if_true]
    rw [← hE]
    exact encoded_fixed _ _ _ _ _ _ _ _ _ _ _ h
  · simp (disch := omega) only [if_neg, if_pos, if_true]
    rw [encoded_sig _ _ _ _ _ _ _ _ h.1 h.2]
  · simp (disch := omega) only [if_neg, if_pos, if_true]
    rw [← hE, encoded_sig _ _ _ _ _ _ _ _ (by omega) (by omega),
      encoded_data _ _ _ _ _ _ _ _ (by omega) (by omega)]
    unfold with_marker KRAKEN_SIG_LEN
    rw [if_pos (by omega)]
    congr 1
    omega
  · simp (disch := omega) only [if_neg, if_pos, if_true]
    rw [← hE, encoded_data _ _ _ _ _ _ _ _ (by omega) (by omega),
      encoded_data _ _ _ _ _ _ _ _ (by omega) (by omega)]
    unfold with_marker KRAKEN_SIG_LEN
    rw [if_neg (by omega)]
    congr 1
    omega
  · subst h
    simp (disch := omega) only [if_neg, if_pos, if_true]
    rw [← hE]
    have e1 : 12 + (n + 20 - 16) = n + 16 := by omega
    have e2 : n + 20 = n + 4 + 16 := by omega
    rw [e1, e2, encoded_wkc_lo, encoded_wkc_lo]
  · subst h
    simp (disch := omega) only [if_neg, if_pos, if_true]
    rw [← hE]
    have e1 : 12 + (n + 21 - 16) = n + 17 := by omega
    have e2 : n + 21 = n + 4 + 17 := by omega
    rw [e1, e2, encoded_wkc_hi, encoded_wkc_hi]

/-- C16: for a payload `p` of `n ≤ 1400` bytes, `inject_signature` applied to the
`n + 18` bytes written by `build_frame` returns `n + 22`, and the result is byte for
byte the frame `build_frame` writes for the payload `KRKN` followed by `p`: both length
fields, the marker, the shifted payload and the working-counter trailer coincide. -/
theorem inject_signature_build_frame (buf buf2 : Buf) (cmd addr offset : Nat) (p : Buf)
    (n wkc : Nat) (hn : n ≤ 1400) :
    (EcatDos.build_frame buf cmd addr offset (some p) n wkc).2 = n + 18 ∧
    (EcatMitm.inject_signature (EcatDos.build_frame buf cmd addr offset (some p) n wkc).1
        (EcatDos.build_frame buf cmd addr offset (some p) n wkc).2).2 = n + 22 ∧
    (EcatInject.build_frame buf2 cmd addr offset (some (with_marker p)) (n + 4) wkc).2
      = n + 22 ∧
    (∀ j, j < n + 22 →
      (EcatMitm.inject_signature (EcatDos.build_frame buf cmd addr offset (some p) n wkc).1
          (EcatDos.build_frame buf cmd addr offset (some p) n wkc).2).1 j
        = (EcatInject.build_frame buf2 cmd addr offset (some (with_marker p)) (n + 4) wkc).1 j) ∧
    bytes (EcatMitm.inject_signature (EcatDos.build_frame buf cmd addr offset (some p) n wkc).1
        (EcatDos.build_frame buf cmd addr offset (some p) n wkc).2).1 (n + 22)
      = bytes (EcatInject.build_frame buf2 cmd addr offset (some (with_marker p)) (n + 4) wkc).1
          (n + 22) := by
  have hf := build_frame_eq_wide buf cmd addr offset (some p) n wkc (by omega)
  have hg : EcatInject.build_frame buf2 cmd addr offset (some (with_marker p)) (n + 4) wkc
      = (encoded buf2 cmd addr offset (some (with_marker p)) (n + 4) wkc, n + 4 + 18) :=
    build_frame_eq_wide buf2 cmd addr offset (some (with_marker p)) (n + 4) wkc (by omega)
  have hH := encoded_header_wide buf cmd addr offset (some p) n wkc (by omega)
  have ht : hdr_type (le16 (encoded buf cmd addr offset (some p) n wkc) 0) = 1 := by
    rw [hH]
    unfold hdr_type
    rw [shr_12, and_0F]
    omega
  have hl : 12 ≤ hdr_len (le16 (encoded buf cmd addr offset (some p) n wkc) 0) := by
    rw [hH]
    unfold hdr_len
    rw [and_7FF]
    omega
  have hi := inject_signature_eq (encoded buf cmd addr offset (some p) n wkc) (n + 18)
    (by omega) ht hl (by omega)
  rw [hf, hg]
  have hpt : ∀ j, j < n + 22 →
      (EcatMitm.inject_signature (encoded buf cmd addr offset (some p) n wkc) (n + 18)).1 j
        = encoded buf2 cmd addr offset (some (with_marker p)) (n + 4) wkc j := by
    intro j hj
    rw [hi]
    exact injected_encoded buf buf2 cmd addr offset p n wkc j hn hj
  refine ⟨rfl, ?_, ?_, hpt, ?_⟩
  · show (EcatMitm.inject_signature (encoded buf cmd addr offset (some p) n wkc) (n + 18)).2 = _
    rw [hi]
  · show n + 4 + 18 = n + 22
    omega
  · unfold bytes
    apply List.map_congr_left
    intro j hj
    exact hpt j (List.mem_range.mp hj)

/-- C16 at the flood frame of the DoS module: injecting into the 20-byte frame for the
payload `[0, 0]` gives the 24-byte frame for the payload `KRKN` followed by `[0, 0]`. -/
theorem inject_signature_build_frame_witness :
    (EcatMitm.inject_signature
        (EcatDos.build_frame zeroed 7 0 0 (some (ofList [0x00, 0x00])) 2 0).1
        (EcatDos.build_frame zeroed 7 0 0 (some (ofList [0x00, 0x00])) 2 0).2).2 = 24 ∧
    bytes (EcatMitm.inject_signature
        (EcatDos.build_frame zeroed 7 0 0 (some (ofList [0x00, 0x00])) 2 0).1
        (EcatDos.build_frame zeroed 7 0 0 (some (ofList [0x00, 0x00])) 2 0).2).1 24
      = bytes (EcatInject.build_frame zeroed 7 0 0
          (some (with_marker (ofList [0x00, 0x00]))) 6 0).1 24 :=
  have h := inject_signature_build_frame zeroed zeroed 7 0 0 (ofList [0x00, 0x00]) 2 0
    (by decide)
  ⟨h.2.1, h.2.2.2.2⟩

/-- The flood frame after marker injection, byte by byte. -/
theorem inject_signature_flood_frame_example :
    bytes (EcatMitm.inject_signature
        (EcatDos.build_frame zeroed 7 0 0 (some (ofList [0x00, 0x00])) 2 0).1 20).1 24
      = [0x16, 0x10, 0x07, 0x01, 0x00, 0x00, 0x00, 0x00, 0x0A, 0x00, 0x00, 0x00,
          0x4B, 0x52, 0x4B, 0x4E, 0x4B, 0x52, 0x4B, 0x4E, 0x00, 0x00, 0x00, 0x00] := by
  decide

/-! ## Bounds of the strategies -/

theorem inject_signature_ret_le (f : Buf) (len : Nat) (h : len ≤ 1500) :
    (EcatMitm.inject_signature f len).2 ≤ 1500 := by
  by_cases hg : len < 14 ∨ hdr_type (le16 f 0) ≠ 1 ∨ hdr_len (le16 f 0) < 12 ∨ len + 4 > 1500
  · rw [(inject_signature_noop f len hg).2]
    split <;> omega
  · rw [inject_signature_eq f len (by omega) (by omega) (by omega) (by omega)]
    show len + 4 ≤ 1500
    omega

theorem inject_signature_writes_lt (f : Buf) (len i : Nat)
    (hi : i ∈ EcatMitm.inject_signature_writes f len) : i < 1500 ∧ i < len + 4 := by
  unfold EcatMitm.inject_signature_writes at hi
  by_cases h1 : len < 14
  · simp [h1] at hi
  · by_cases h2 : hdr_type (le16 f 0) ≠ 1
    · simp [h1, h2] at hi
    · by_cases h3 : hdr_len (le16 f 0) < 12
      · simp [h1, h2, h3] at hi
      · by_cases h4 : len + KRAKEN_SIG_LEN > 1500
        · simp [h1, h2, h3, h4] at hi
        · simp only [h1, h2, h3, h4, if_false, List.mem_append, List.mem_range'_1,
            List.mem_cons, List.mem_singleton, List.not_mem_nil, or_false] at hi
          unfold KRAKEN_SIG_LEN at hi h4
          omega

theorem inject_signature_reads_lt (f : Buf) (len i : Nat)
    (hi : i ∈ EcatMitm.inject_signature_reads f len) : i < len := by
  unfold EcatMitm.inject_signature_reads at hi
  by_cases h1 : len < 14
  · simp [h1] at hi
  · by_cases h2 : hdr_type (le16 f 0) ≠ 1
    · simp [h1, h2] at hi
      omega
    · by_cases h3 : hdr_len (le16 f 0) < 12
      · simp [h1, h2, h3] at hi
        omega
      · by_cases h4 : len + KRAKEN_SIG_LEN > 1500
        · simp [h1, h2, h3, h4] at hi
          omega
        · simp only [h1, h2, h3, h4, if_false, List.mem_append, List.mem_range'_1,
            List.mem_cons, List.mem_singleton, List.not_mem_nil, or_false] at hi
          omega

theorem alter_wkc_accesses_lt (m : Buf) (n i : Nat)
    (hi : i ∈ EcatMitm.alter_wkc_accesses m n) : i < n := by
  unfold EcatMitm.alter_wkc_accesses at hi
  by_cases h1 : n > 4
  · by_cases h2 : hdr_len (le16 m 0) > 2 ∧ hdr_len (le16 m 0) ≤ n - 2
    · simp only [h1, h2, if_true, and_self, List.mem_cons, List.mem_singleton,
        List.not_mem_nil, or_false] at hi
      omega
    · simp only [h1, h2, if_true, if_false, List.mem_cons, List.mem_singleton,
        List.not_mem_nil, or_false] at hi
      omega
  · simp [h1] at hi

theorem corrupt_loop_accesses_mem (n : Nat) :
    ∀ (fuel j i : Nat), i ∈ EcatMitm.corrupt_loop_accesses n fuel j →
      j ≤ i ∧ i < n - 2 ∧ i < 20 := by
  intro fuel
  induction fuel with
  | zero =>
    intro j i hi
    simp [EcatMitm.corrupt_loop_accesses] at hi
  | succ fuel ih =>
    intro j i hi
    unfold EcatMitm.corrupt_loop_accesses at hi
    by_cases hj : j < n - 2 ∧ j < 20
    · rw [if_pos hj, List.mem_cons] at hi
      rcases hi with h | h
      · omega
      · have := ih (j + 1) i h
        omega
    · rw [if_neg hj] at hi
      simp at hi

theorem corrupt_data_accesses_lt (n i : Nat)
    (hi : i ∈ EcatMitm.corrupt_data_accesses n) : 12 ≤ i ∧ i < n - 2 ∧ i < n := by
  unfold EcatMitm.corrupt_data_accesses at hi
  by_cases h : n > 14
  · rw [if_pos h] at hi
    have := corrupt_loop_accesses_mem n 8 12 i hi
    omega
  · simp [h] at hi

theorem substitute_cmd_accesses_lt (n i : Nat)
    (hi : i ∈ EcatMitm.substitute_cmd_accesses n) : i < n := by
  unfold EcatMitm.substitute_cmd_accesses at hi
  by_cases h : n > 2
  · simp [h] at hi
    omega
  · simp [h] at hi

theorem corrupt_loop_accesses_complete (n : Nat) :
    ∀ (fuel j i : Nat), 20 ≤ j + fuel → j ≤ i → i < n - 2 → i < 20 →
      i ∈ EcatMitm.corrupt_loop_accesses n fuel j := by
  intro fuel
  induction fuel with
  | zero =>
    intro j i hf h1 h2 h3
    omega
  | succ fuel ih =>
    intro j i hf h1 h2 h3
    unfold EcatMitm.corrupt_loop_accesses
    have hj : j < n - 2 ∧ j < 20 := by omega
    rw [if_pos hj, List.mem_cons]
    by_cases hij : i = j
    · exact Or.inl hij
    · exact Or.inr (ih (j + 1) i (by omega) (by omega) h2 h3)

/-- The footprints are sound: a cell outside the footprint of a step keeps its value. -/
theorem footprints_sound (m : Buf) (n j : Nat) :
    (j ∉ EcatMitm.inject_signature_writes m n → (EcatMitm.inject_signature m n).1 j = m j) ∧
    (j ∉ EcatMitm.alter_wkc_accesses m n → EcatMitm.alter_wkc m n j = m j) ∧
    (j ∉ EcatMitm.corrupt_data_accesses n → EcatMitm.corrupt_data m n j = m j) ∧
    (j ∉ EcatMitm.substitute_cmd_accesses n → EcatMitm.substitute_cmd m n j = m j) := by
  refine ⟨?_, ?_, ?_, ?_⟩
  · intro hj
    by_cases hg : n < 14 ∨ hdr_type (le16 m 0) ≠ 1 ∨ hdr_len (le16 m 0) < 12 ∨ n + 4 > 1500
    · rw [(inject_signature_noop m n hg).1]
    · have h1 : ¬ n < 14 := by omega
      have h2 : ¬ hdr_type (le16 m 0) ≠ 1 := by omega
      have h3 : ¬ hdr_len (le16 m 0) < 12 := by omega
      have h4 : ¬ n + KRAKEN_SIG_LEN > 1500 := by
        unfold KRAKEN_SIG_LEN
        omega
      unfold EcatMitm.inject_signature_writes at hj
      simp only [h1, h2, h3, h4, if_false, List.mem_append, List.mem_range'_1,
        List.mem_cons, List.mem_singleton, List.not_mem_nil, or_false] at hj
      unfold KRAKEN_SIG_LEN at hj
      rw [inject_signature_eq m n (by omega) (by omega) (by omega) (by omega)]
      show injected m n j = m j
      unfold injected
      simp (disch := omega) only [if_neg]
  · intro hj
    unfold EcatMitm.alter_wkc_accesses at hj
    by_cases h1 : n > 4
    · by_cases h2 : hdr_len (le16 m 0) > 2 ∧ hdr_len (le16 m 0) ≤ n - 2
      · simp only [h1, h2, if_true, and_self, List.mem_cons, List.mem_singleton,
          List.not_mem_nil, or_false] at hj
        rw [alter_wkc_changed m n h1 h2.1 h2.2, wr_other _ _ _ _ (by omega),
          wr_other _ _ _ _ (by omega)]
      · rw [alter_wkc_unchanged m n (by omega)]
    · rw [alter_wkc_unchanged m n (by omega)]
  · intro hj
    unfold EcatMitm.corrupt_data_accesses at hj
    unfold EcatMitm.corrupt_data
    by_cases h : n > 14
    · rw [if_pos h] at hj
      rw [if_pos h, corrupt_loop_apply n 8 12 m j (by omega)]
      have hc : ¬ (12 ≤ j ∧ j < n - 2 ∧ j < 20) := by
        intro hc
        exact hj (corrupt_loop_accesses_complete n 8 12 j (by omega) hc.1 hc.2.1 hc.2.2)
      rw [if_neg hc]
    · rw [if_neg h]
  · intro hj
    unfold EcatMitm.substitute_cmd_accesses at hj
    by_cases h : n > 2
    · simp only [h, if_true, List.mem_singleton] at hj
      exact substitute_cmd_other m n j hj
    · unfold EcatMitm.substitute_cmd
      rw [if_neg h]

/-- C11: for a captured entry of 17 to 1500 bytes, each of the four strategies hands to
send a length of at most 1500; every offset a mutation step reads or writes lies below
the stripped sub-frame length `len - 14`; every offset marker injection writes lies
below 1500, the size of the working buffer, and every offset it reads lies below the
sub-frame length. -/
theorem strategies_within_bounds (modified : Buf) (e : EcatMitm.captured_frame_t)
    (h17 : 17 ≤ e.len) (h1500 : e.len ≤ 1500) :
    (∃ f l, EcatMitm.replay_body modified e = some (f, l) ∧ l ≤ 1500) ∧
    (∃ f l, EcatMitm.modified_wkc_body modified e = some (f, l) ∧ l ≤ 1500) ∧
    (∃ f l, EcatMitm.corrupted_data_body modified e = some (f, l) ∧ l ≤ 1500) ∧
    (∃ f l, EcatMitm.cmd_substitution_body modified e = some (f, l) ∧ l ≤ 1500) ∧
    (∀ i, i ∈ EcatMitm.alter_wkc_accesses (memcpy modified 0 e.data 14 (e.len - 14))
        (e.len - 14) → i < e.len - 14) ∧
    (∀ i, i ∈ EcatMitm.corrupt_data_accesses (e.len - 14) → i < e.len - 14) ∧
    (∀ i, i ∈ EcatMitm.substitute_cmd_accesses (e.len - 14) → i < e.len - 14) ∧
    (∀ f i, i ∈ EcatMitm.inject_signature_writes f (e.len - 14) → i < 1500) ∧
    (∀ f i, i ∈ EcatMitm.inject_signature_reads f (e.len - 14) → i < e.len - 14) := by
  have hlen : e.len > 14 := by omega
  have hlen2 : ¬ e.len ≤ 14 := by omega
  have hn : e.len - 14 ≤ 1500 := by omega
  refine ⟨?_, ?_, ?_, ?_, ?_, ?_, ?_, ?_, ?_⟩
  · refine ⟨(EcatMitm.inject_signature (memcpy modified 0 e.data 14 (e.len - 14))
        (e.len - 14)).1, _, ?_,
      inject_signature_ret_le (memcpy modified 0 e.data 14 (e.len - 14)) _ hn⟩
    unfold EcatMitm.replay_body
    simp only [hlen, if_true]
  · refine ⟨(EcatMitm.inject_signature
        (EcatMitm.alter_wkc (memcpy modified 0 e.data 14 (e.len - 14)) (e.len - 14))
        (e.len - 14)).1, _, ?_, inject_signature_ret_le
      (EcatMitm.alter_wkc (memcpy modified 0 e.data 14 (e.len - 14)) (e.len - 14)) _ hn⟩
    unfold EcatMitm.modified_wkc_body
    simp only [hlen2, if_false]
  · refine ⟨(EcatMitm.inject_signature
        (EcatMitm.corrupt_data (memcpy modified 0 e.data 14 (e.len - 14)) (e.len - 14))
        (e.len - 14)).1, _, ?_, inject_signature_ret_le
      (EcatMitm.corrupt_data (memcpy modified 0 e.data 14 (e.len - 14)) (e.len - 14)) _ hn⟩
    unfold EcatMitm.corrupted_data_body
    simp only [hlen2, if_false]
  · refine ⟨(EcatMitm.inject_signature
        (EcatMitm.substitute_cmd (memcpy modified 0 e.data 14 (e.len - 14)) (e.len - 14))
        (e.len - 14)).1, _, ?_, inject_signature_ret_le
      (EcatMitm.substitute_cmd (memcpy modified 0 e.data 14 (e.len - 14)) (e.len - 14)) _ hn⟩
    unfold EcatMitm.cmd_substitution_body
    simp only [hlen2, if_false]
  · intro i hi
    exact alter_wkc_accesses_lt _ _ i hi
  · intro i hi
    exact (corrupt_data_accesses_lt _ i hi).2.2
  · intro i hi
    exact substitute_cmd_accesses_lt _ i hi
  · intro f i hi
    exact (inject_signature_writes_lt f _ i hi).1
  · intro f i hi
    exact inject_signature_reads_lt f _ i hi

/-- C11 at the 30-byte entry: replay hands a length within the buffer to send, and the
working-counter alteration touches offsets below 16 only. -/
theorem strategies_within_bounds_witness :
    (∃ f l, EcatMitm.replay_body zeroed entry_read = some (f, l) ∧ l ≤ 1500) ∧
    (∀ i, i ∈ EcatMitm.alter_wkc_accesses (memcpy zeroed 0 entry_read.data 14
        (entry_read.len - 14)) (entry_read.len - 14) → i < entry_read.len - 14) :=
  have h := strategies_within_bounds zeroed entry_read (by decide) (by decide)
  ⟨h.1, h.2.2.2.2.1⟩

/-! ## The capture phase -/

theorem capture_loop_nil (stale : Nat → Buf) (captured : List EcatMitm.captured_frame_t)
    (calls : Nat) : EcatMitm.capture_loop stale [] captured calls = (captured, calls) := rfl

/-- One iteration of the capture loop. -/
theorem capture_loop_cons (stale : Nat → Buf) (r : Int × Buf) (rest : List (Int × Buf))
    (captured : List EcatMitm.captured_frame_t) (calls : Nat) :
    EcatMitm.capture_loop stale (r :: rest) captured calls
      = if captured.length < MAX_CAPTURED then
          if EcatMitm.qualifies r then
            EcatMitm.capture_loop stale rest
              (captured ++ [{ data := memcpy (stale captured.length) 0 r.2 0 r.1.toNat,
                              len := r.1.toNat }])
              (calls + 1)
          else EcatMitm.capture_loop stale rest captured (calls + 1)
        else (captured, calls) := by
  obtain ⟨n, buf⟩ := r
  unfold EcatMitm.qualifies
  rw [EcatMitm.capture_loop]
  by_cases h0 : captured.length < MAX_CAPTURED
  · by_cases h1 : n > 16
    · by_cases h2 : hdr_type (le16 buf 14) = 1
      · simp only [h0, h1, h2, if_true, and_self, decide_True]
      · simp [h0, h1, h2]
    · simp [h0, h1]
  · simp only [h0, if_false]

theorem bytes_memcpy (dst src : Buf) (n : Nat) : bytes (memcpy dst 0 src 0 n) n = bytes src n := by
  unfold bytes
  apply List.map_congr_left
  intro j hj
  rw [memcpy_inside _ _ _ _ _ _ (by omega) (by have := List.mem_range.mp hj; omega)]
  congr 1
  omega

/-- The capture loop from any state: it makes `k` further `recv` calls, appends the
qualifying ones among the first `k` results, in order, stops short of the end of the
results only when the buffer is full, and makes each call with fewer than 100 entries
stored. -/
theorem capture_loop_spec (stale : Nat → Buf) :
    ∀ (rs : List (Int × Buf)) (captured : List EcatMitm.captured_frame_t) (calls : Nat),
      ∃ k, (EcatMitm.capture_loop stale rs captured calls).2 = calls + k ∧ k ≤ rs.length ∧
        (EcatMitm.capture_loop stale rs captured calls).1.map
            (fun e => EcatMitm.stored_view e.len e.data)
          = captured.map (fun e => EcatMitm.stored_view e.len e.data) ++
            ((rs.take k).filter EcatMitm.qualifies).map
              (fun r => EcatMitm.stored_view r.1.toNat r.2) ∧
        ((EcatMitm.capture_loop stale rs captured calls).1.length < MAX_CAPTURED →
          k = rs.length) ∧
        (∀ j, j < k →
          captured.length + ((rs.take j).filter EcatMitm.qualifies).length < MAX_CAPTURED) := by
  intro rs
  induction rs with
  | nil =>
    intro captured calls
    refine ⟨0, rfl, Nat.le_refl _, ?_, fun _ => rfl, fun j hj => absurd hj (Nat.not_lt_zero j)⟩
    simp [capture_loop_nil]
  | cons r rest ih =>
    intro captured calls
    rw [capture_loop_cons]
    by_cases h0 : captured.length < MAX_CAPTURED
    · rw [if_pos h0]
      by_cases hq : EcatMitm.qualifies r = true
      · rw [if_pos hq]
        obtain ⟨k, hk1, hk2, hk3, hk4, hk5⟩ := ih
          (captured ++ [{ data := memcpy (stale captured.length) 0 r.2 0 r.1.toNat,
                          len := r.1.toNat }]) (calls + 1)
        refine ⟨k + 1, by rw [hk1]; omega, by simp only [List.length_cons]; omega, ?_, ?_, ?_⟩
        · rw [hk3]
          simp only [List.take_succ_cons, List.filter_cons, hq, if_true, List.map_append,
            List.map_cons, List.map_nil, List.append_assoc, List.singleton_append]
          unfold EcatMitm.stored_view
          rw [bytes_memcpy]
        · intro hl
          rw [hk4 hl, List.length_cons]
        · intro j hj
          cases j with
          | zero => simpa using h0
          | succ j =>
            have := hk5 j (by omega)
            simp only [List.length_append, List.length_cons, List.length_nil] at this
            simp only [List.take_succ_cons, List.filter_cons, hq, if_true, List.length_cons]
            omega
      · rw [if_neg hq]
        obtain ⟨k, hk1, hk2, hk3, hk4, hk5⟩ := ih captured (calls + 1)
        refine ⟨k + 1, by rw [hk1]; omega, by simp only [List.length_cons]; omega, ?_, ?_, ?_⟩
        · rw [hk3]
          simp only [List.take_succ_cons, List.filter_cons, hq, if_false]
          rfl
        · intro hl
          rw [hk4 hl, List.length_cons]
        · intro j hj
          cases j with
          | zero => simpa using h0
          | succ j =>
            have := hk5 j (by omega)
            simp only [List.take_succ_cons, List.filter_cons, hq, if_false]
            exact this
    · rw [if_neg h0]
      refine ⟨0, rfl, Nat.zero_le _, by simp, fun hl => absurd hl h0,
        fun j hj => absurd hj (Nat.not_lt_zero j)⟩

/-- The capture loop never holds more than 100 entries. -/
theorem capture_loop_length_le (stale : Nat → Buf) :
    ∀ (rs : List (Int × Buf)) (captured : List EcatMitm.captured_frame_t) (calls : Nat),
      captured.length ≤ MAX_CAPTURED →
      (EcatMitm.capture_loop stale rs captured calls).1.length ≤ MAX_CAPTURED := by
  intro rs
  induction rs with
  | nil =>
    intro captured calls h
    exact h
  | cons r rest ih =>
    intro captured calls h
    rw [capture_loop_cons]
    by_cases h0 : captured.length < MAX_CAPTURED
    · rw [if_pos h0]
      by_cases hq : EcatMitm.qualifies r = true
      · rw [if_pos hq]
        apply ih
        simp only [List.length_append, List.length_cons, List.length_nil]
        omega
      · rw [if_neg hq]
        exact ih captured (calls + 1) h
    · rw [if_neg h0]
      exact h

theorem qualifies_iff (r : Int × Buf) (h14 : r.2 14 < 256) (h15 : r.2 15 < 256) :
    EcatMitm.qualifies r = true ↔ (r.1 > 16 ∧ r.2 15 / 16 = 1) := by
  have hle : le16 r.2 14 = r.2 14 + r.2 15 * 256 := le16_eq r.2 14 h14 h15
  unfold EcatMitm.qualifies
  rw [decide_eq_true_iff, hle]
  unfold hdr_type
  rw [shr_12, and_0F]
  constructor
  · intro h
    refine ⟨h.1, ?_⟩
    have := h.2
    omega
  · intro h
    refine ⟨h.1, ?_⟩
    have := h.2
    omega

/-- C12: for every sequence of receive results of at most 1500 bytes each and every
duration, `capture_frames` starts from the empty buffer and stores, byte for byte and in
arrival order, exactly the received chunks that are longer than 16 bytes and carry type
nibble 1 after the 14-byte link header (the high four bits of byte 15); it makes no
`recv` call once 100 entries are stored, stops earlier only when the results run out,
and returns the number of stored entries, which is at most 100. -/
theorem capture_frames_spec (recvs : List (Int × Buf)) (stale : Nat → Buf)
    (result : KrakenRunResultV2) (duration_ms : Int)
    (hsize : ∀ r, r ∈ recvs → r.1 ≤ 1500) :
    (EcatMitm.capture_frames recvs stale result duration_ms).2.2.2
      = ((EcatMitm.capture_frames recvs stale result duration_ms).1.length : Int) ∧
    (EcatMitm.capture_frames recvs stale result duration_ms).1.length ≤ 100 ∧
    (EcatMitm.capture_frames recvs stale result duration_ms).2.1 ≤ recvs.length ∧
    (EcatMitm.capture_frames recvs stale result duration_ms).1.map
        (fun e => EcatMitm.stored_view e.len e.data)
      = ((recvs.take (EcatMitm.capture_frames recvs stale result duration_ms).2.1).filter
          EcatMitm.qualifies).map (fun r => EcatMitm.stored_view r.1.toNat r.2) ∧
    ((EcatMitm.capture_frames recvs stale result duration_ms).1.length < 100 →
      (EcatMitm.capture_frames recvs stale result duration_ms).2.1 = recvs.length) ∧
    (∀ j, j < (EcatMitm.capture_frames recvs stale result duration_ms).2.1 →
      ((recvs.take j).filter EcatMitm.qualifies).length < 100) ∧
    (∀ e, e ∈ (EcatMitm.capture_frames recvs stale result duration_ms).1 →
      16 < e.len ∧ e.len ≤ 1500) ∧
    (∀ r, r ∈ recvs → r.2 14 < 256 → r.2 15 < 256 →
      (EcatMitm.qualifies r = true ↔ (r.1 > 16 ∧ r.2 15 / 16 = 1))) := by
  obtain ⟨k, hk1, hk2, hk3, hk4, hk5⟩ := capture_loop_spec stale recvs [] 0
  have hlen := capture_loop_length_le stale recvs [] 0 (Nat.zero_le _)
  have hcalls : (EcatMitm.capture_frames recvs stale result duration_ms).2.1 = k := by
    show (EcatMitm.capture_loop stale recvs [] 0).2 = k
    rw [hk1]
    omega
  have hmap : (EcatMitm.capture_loop stale recvs [] 0).1.map
        (fun e => EcatMitm.stored_view e.len e.data)
      = ((recvs.take k).filter EcatMitm.qualifies).map
          (fun r => EcatMitm.stored_view r.1.toNat r.2) := by
    rw [hk3]
    rfl
  rw [hcalls]
  refine ⟨rfl, hlen, hk2, hmap, hk4, ?_, ?_, ?_⟩
  · intro j hj
    have := hk5 j hj
    simpa using this
  · intro e he
    have hv : EcatMitm.stored_view e.len e.data ∈
        (EcatMitm.capture_loop stale recvs [] 0).1.map
          (fun e => EcatMitm.stored_view e.len e.data) :=
      List.mem_map.mpr ⟨e, he, rfl⟩
    rw [hmap] at hv
    obtain ⟨r, hr, hre⟩ := List.mem_map.mp hv
    have hr2 := List.mem_filter.mp hr
    have hrmem : r ∈ recvs := List.mem_of_mem_take hr2.1
    have hq : r.1 > 16 := by
      have := hr2.2
      unfold EcatMitm.qualifies at this
      exact (decide_eq_true_iff.mp this).1
    have hsz := hsize r hrmem
    have hl : r.1.toNat = e.len := congrArg Prod.fst hre
    omega
  · intro r _ h14 h15
    exact qualifies_iff r h14 h15

/-- C12 on four receive results: two qualify and are stored in arrival order. -/
theorem capture_frames_spec_witness :
    (EcatMitm.capture_frames recvs_example (fun _ => zeroed) empty_result 2000).2.2.2
      = ((EcatMitm.capture_frames recvs_example (fun _ => zeroed) empty_result 2000).1.length
          : Int) ∧
    (EcatMitm.capture_frames recvs_example (fun _ => zeroed) empty_result 2000).1.length
      ≤ 100 :=
  have h := capture_frames_spec recvs_example (fun _ => zeroed) empty_result 2000
    (by decide)
  ⟨h.1, h.2.1⟩

/-- The capture phase evaluated on the four receive results. -/
theorem capture_frames_example :
    (EcatMitm.capture_frames recvs_example (fun _ => zeroed) empty_result 2000).1.map
        (fun e => e.len) = [30, 19] ∧
    (EcatMitm.capture_frames recvs_example (fun _ => zeroed) empty_result 2000).2.1 = 4 ∧
    (EcatMitm.capture_frames recvs_example (fun _ => zeroed) empty_result 2000).2.2.2 = 2 := by
  decide

/-! ## Sending and counting -/

theorem ops_send_result (conn : Conn) (data : Buf) (len t : Nat) :
    (ops_send conn data len t).1 = conn.send_result conn.sent.length ∧
    (ops_send conn data len t).2.send_result = conn.send_result ∧
    (ops_send conn data len t).2.sent.length = conn.sent.length + 1 := by
  unfold ops_send
  simp

/-- The counting loop: the host is unchanged, at most one call is added per frame, the
counter never decreases, and it increases exactly when one of the added calls returned
a positive byte count. -/
theorem send_loop_spec (t : Nat) :
    ∀ (reqs : List (Option (Buf × Nat))) (sent : Nat) (conn : Conn),
      (send_loop t reqs sent conn).2.send_result = conn.send_result ∧
      conn.sent.length ≤ (send_loop t reqs sent conn).2.sent.length ∧
      (send_loop t reqs sent conn).2.sent.length ≤ conn.sent.length + reqs.length ∧
      sent ≤ (send_loop t reqs sent conn).1 ∧
      (sent < (send_loop t reqs sent conn).1 ↔
        some_positive conn.send_result conn.sent.length
          (send_loop t reqs sent conn).2.sent.length) := by
  intro reqs
  induction reqs with
  | nil =>
    intro sent conn
    refine ⟨rfl, Nat.le_refl _, Nat.le_refl _, Nat.le_refl _, ?_⟩
    show sent < sent ↔ some_positive conn.send_result conn.sent.length conn.sent.length
    unfold some_positive
    constructor
    · intro h
      omega
    · rintro ⟨k, h1, h2, _⟩
      omega
  | cons r rest ih =>
    intro sent conn
    cases r with
    | none =>
      obtain ⟨h1, h2, h3, h4, h5⟩ := ih sent conn
      refine ⟨h1, h2, ?_, h4, h5⟩
      show (send_loop t rest sent conn).2.sent.length ≤ conn.sent.length + (rest.length + 1)
      omega
    | some fl =>
      obtain ⟨frame, len⟩ := fl
      obtain ⟨o1, o2, o3⟩ := ops_send_result conn frame len t
      by_cases hp : conn.send_result conn.sent.length > 0
      · have hstep : send_loop t (some (frame, len) :: rest) sent conn
            = send_loop t rest (sent + 1) (ops_send conn frame len t).2 := by
          rw [send_loop, o1, if_pos hp]
        obtain ⟨h1, h2, h3, h4, h5⟩ := ih (sent + 1) (ops_send conn frame len t).2
        rw [o2] at h1
        rw [o3] at h2 h3
        rw [hstep]
        refine ⟨h1, by omega, by simp only [List.length_cons]; omega, by omega, ?_⟩
        constructor
        · intro _
          exact ⟨conn.sent.length, Nat.le_refl _, by omega, hp⟩
        · intro _
          omega
      · have hstep : send_loop t (some (frame, len) :: rest) sent conn
            = send_loop t rest sent (ops_send conn frame len t).2 := by
          rw [send_loop, o1, if_neg hp]
        obtain ⟨h1, h2, h3, h4, h5⟩ := ih sent (ops_send conn frame len t).2
        rw [o2] at h1 h5
        rw [o3] at h2 h3 h5
        rw [hstep]
        refine ⟨h1, by omega, by simp only [List.length_cons]; omega, h4, ?_⟩
        rw [h5]
        unfold some_positive
        constructor
        · rintro ⟨k, k1, k2, k3⟩
          exact ⟨k, by omega, k2, k3⟩
        · rintro ⟨k, k1, k2, k3⟩
          have hk : k ≠ conn.sent.length := by
            intro hk
            rw [hk] at k3
            exact hp k3
          exact ⟨k, by omega, k2, k3⟩

theorem send_loop_counts (t : Nat) (reqs : List (Option (Buf × Nat))) (conn : Conn) :
    counts_positive conn (send_loop t reqs 0 conn).2 (send_loop t reqs 0 conn).1 := by
  obtain ⟨h1, h2, _, _, h5⟩ := send_loop_spec t reqs 0 conn
  exact ⟨h1, h2, h5⟩

theorem counts_positive_refl (conn : Conn) : counts_positive conn conn 0 := by
  refine ⟨rfl, Nat.le_refl _, ?_⟩
  unfold some_positive
  constructor
  · intro h
    omega
  · rintro ⟨k, h1, h2, _⟩
    omega

/-- Two stretches in a row count as one. -/
theorem counts_positive_trans (c0 c1 c2 : Conn) (s1 s2 : Nat)
    (h1 : counts_positive c0 c1 s1) (h2 : counts_positive c1 c2 s2) :
    counts_positive c0 c2 (s1 + s2) := by
  obtain ⟨a1, a2, a3⟩ := h1
  obtain ⟨b1, b2, b3⟩ := h2
  rw [a1] at b3
  refine ⟨by rw [b1, a1], by omega, ?_⟩
  unfold some_positive at a3 b3 ⊢
  constructor
  · intro h
    have hs : 0 < s1 ∨ 0 < s2 := by omega
    rcases hs with hs | hs
    · obtain ⟨k, k1, k2, k3⟩ := a3.mp hs
      exact ⟨k, k1, by omega, k3⟩
    · obtain ⟨k, k1, k2, k3⟩ := b3.mp hs
      exact ⟨k, by omega, k2, k3⟩
  · rintro ⟨k, k1, k2, k3⟩
    by_cases hk : k < c1.sent.length
    · have := a3.mpr ⟨k, k1, hk, k3⟩
      omega
    · have := b3.mpr ⟨k, by omega, k2, k3⟩
      omega

/-! ## The modules as a whole -/

theorem test_replay_counts (conn : Conn) (captured : List EcatMitm.captured_frame_t)
    (result : KrakenRunResultV2) (modified : Buf) :
    counts_positive conn (EcatMitm.test_replay conn captured result modified).2.1
      (EcatMitm.test_replay conn captured result modified).1 ∧
    (captured.length = 0 →
      (EcatMitm.test_replay conn captured result modified).2.1 = conn ∧
      (EcatMitm.test_replay conn captured result modified).1 = 0) := by
  unfold EcatMitm.test_replay
  by_cases h : captured.length = 0
  · rw [if_pos h]
    exact ⟨counts_positive_refl conn, fun _ => ⟨rfl, rfl⟩⟩
  · rw [if_neg h]
    exact ⟨send_loop_counts 50 _ conn, fun h0 => absurd h0 h⟩

theorem test_modified_wkc_counts (conn : Conn) (captured : List EcatMitm.captured_frame_t)
    (result : KrakenRunResultV2) (modified : Buf) :
    counts_positive conn (EcatMitm.test_modified_wkc conn captured result modified).2.1
      (EcatMitm.test_modified_wkc conn captured result modified).1 ∧
    (captured.length = 0 →
      (EcatMitm.test_modified_wkc conn captured result modified).2.1 = conn ∧
      (EcatMitm.test_modified_wkc conn captured result modified).1 = 0) := by
  unfold EcatMitm.test_modified_wkc
  by_cases h : captured.length = 0
  · rw [if_pos h]
    exact ⟨counts_positive_refl conn, fun _ => ⟨rfl, rfl⟩⟩
  · rw [if_neg h]
    exact ⟨send_loop_counts 50 _ conn, fun h0 => absurd h0 h⟩

theorem test_corrupted_data_counts (conn : Conn) (captured : List EcatMitm.captured_frame_t)
    (result : KrakenRunResultV2) (modified : Buf) :
    counts_positive conn (EcatMitm.test_corrupted_data conn captured result modified).2.1
      (EcatMitm.test_corrupted_data conn captured result modified).1 ∧
    (captured.length = 0 →
      (EcatMitm.test_corrupted_data conn captured result modified).2.1 = conn ∧
      (EcatMitm.test_corrupted_data conn captured result modified).1 = 0) := by
  unfold EcatMitm.test_corrupted_data
  by_cases h : captured.length = 0
  · rw [if_pos h]
    exact ⟨counts_positive_refl conn, fun _ => ⟨rfl, rfl⟩⟩
  · rw [if_neg h]
    exact ⟨send_loop_counts 50 _ conn, fun h0 => absurd h0 h⟩

theorem test_cmd_substitution_counts (conn : Conn) (captured : List EcatMitm.captured_frame_t)
    (result : KrakenRunResultV2) (modified : Buf) :
    counts_positive conn (EcatMitm.test_cmd_substitution conn captured result modified).2.1
      (EcatMitm.test_cmd_substitution conn captured result modified).1 ∧
    (captured.length = 0 →
      (EcatMitm.test_cmd_substitution conn captured result modified).2.1 = conn ∧
      (EcatMitm.test_cmd_substitution conn captured result modified).1 = 0) := by
  unfold EcatMitm.test_cmd_substitution
  by_cases h : captured.length = 0
  · rw [if_pos h]
    exact ⟨counts_positive_refl conn, fun _ => ⟨rfl, rfl⟩⟩
  · rw [if_neg h]
    exact ⟨send_loop_counts 50 _ conn, fun h0 => absurd h0 h⟩

/-- The DoS module as a whole: one finding with severity `medium`, whose success flag
is the test `total_sent > 0`, where `total_sent` counts the sends of the invocation
that returned a positive byte count. -/
theorem dos_run_spec (conn : Conn) (flood_iterations : Nat) (frame : Buf) :
    ∃ total conn2,
      EcatDos.kraken_run_v2 true conn flood_iterations frame
        = (0, some { findings := [{ id := "ecat-dos", module_id := "ecat_dos",
                                    success := decide (total > 0),
                                    title := "EtherCAT DoS Testing", severity := "medium" }],
                     logs := [] }, conn2) ∧
      counts_positive conn conn2 total := by
  refine ⟨_, _, rfl, ?_⟩
  have h0 := counts_positive_refl conn
  have h1 := counts_positive_trans _ _ _ _ _ h0 (send_loop_counts 1
    (List.replicate flood_iterations
      (some ((EcatDos.build_frame frame 7 0 0 (some (ofList [0, 0])) 2 0).1,
        (EcatDos.build_frame frame 7 0 0 (some (ofList [0, 0])) 2 0).2))) conn)
  have h2 := counts_positive_trans _ _ _ _ _ h1 (send_loop_counts 10
    (List.replicate 50
      (some ((EcatDos.build_frame frame 8 0 0x0120 (some (ofList [0x01, 0x00])) 2 0).1,
        (EcatDos.build_frame frame 8 0 0x0120 (some (ofList [0x01, 0x00])) 2 0).2)))
    (EcatDos.test_flood conn 500 flood_iterations frame).2)
  have h3 := counts_positive_trans _ _ _ _ _ h2 (send_loop_counts 1
    (List.replicate 10 (List.replicate 20
      (some ((EcatDos.build_frame frame 7 0 0 (some (ofList [0, 0])) 2 0).1,
        (EcatDos.build_frame frame 7 0 0 (some (ofList [0, 0])) 2 0).2)))).flatten
    (EcatDos.test_state_change (EcatDos.test_flood conn 500 flood_iterations frame).2 frame).2)
  have h4 := counts_positive_trans _ _ _ _ _ h3 (send_loop_counts 50
    (List.replicate 20
      (some ((EcatDos.build_frame frame 7 0 0 (some (memset frame 0 0xAA 1400)) 1400 0).1,
        (EcatDos.build_frame frame 7 0 0 (some (memset frame 0 0xAA 1400)) 1400 0).2)))
    (EcatDos.test_timing_disruption
      (EcatDos.test_state_change (EcatDos.test_flood conn 500 flood_iterations frame).2
        frame).2 frame).2)
  exact h4

theorem add_log_v2_findings (r : KrakenRunResultV2) (l : String) :
    (add_log_v2 r l).findings = r.findings := rfl

theorem mitm_tests_findings (conn : Conn) (captured : List EcatMitm.captured_frame_t)
    (result : KrakenRunResultV2) (modified : Buf) :
    (EcatMitm.test_replay conn captured result modified).2.2.findings = result.findings ∧
    (EcatMitm.test_modified_wkc conn captured result modified).2.2.findings
      = result.findings ∧
    (EcatMitm.test_corrupted_data conn captured result modified).2.2.findings
      = result.findings ∧
    (EcatMitm.test_cmd_substitution conn captured result modified).2.2.findings
      = result.findings := by
  unfold EcatMitm.test_replay EcatMitm.test_modified_wkc EcatMitm.test_corrupted_data
    EcatMitm.test_cmd_substitution
  by_cases h : captured.length = 0
  · simp only [if_pos h, add_log_v2_findings, and_self]
  · simp only [if_neg h, add_log_v2_findings, and_self]

/-- The MITM module as a whole: the result object is the log with one finding added,
whose success flag is the test `capture_count > 0 && total_sent > 0` and whose severity
is `high` or `info` accordingly; `total_sent` counts the sends that returned a positive
byte count, and with an empty capture buffer no send is made. -/
theorem mitm_run_spec (conn : Conn) (recvs : List (Int × Buf)) (stale : Nat → Buf)
    (modified : Buf) :
    ∃ total conn2 r,
      EcatMitm.kraken_run_v2 true conn recvs stale modified
        = (0, some (add_finding_v2 r
            { id := "ecat-mitm", module_id := "ecat_mitm",
              success := decide
                ((EcatMitm.capture_loop stale recvs [] 0).1.length > 0 ∧ total > 0),
              title := "EtherCAT MITM Testing",
              severity :=
                if decide ((EcatMitm.capture_loop stale recvs [] 0).1.length > 0 ∧ total > 0)
                    = true
                then "high" else "info" }), conn2) ∧
      r.findings = [] ∧
      counts_positive conn conn2 total ∧
      ((EcatMitm.capture_loop stale recvs [] 0).1.length = 0 → conn2 = conn ∧ total = 0) := by
  refine ⟨_, _, _, rfl, ?_, ?_, ?_⟩
  · simp only [add_log_v2_findings, (mitm_tests_findings _ _ _ _).1,
      (mitm_tests_findings _ _ _ _).2.1, (mitm_tests_findings _ _ _ _).2.2.1,
      (mitm_tests_findings _ _ _ _).2.2.2]
    rfl
  · exact counts_positive_trans _ _ _ _ _
      (counts_positive_trans _ _ _ _ _
        (counts_positive_trans _ _ _ _ _
          (counts_positive_trans _ _ _ _ _ (counts_positive_refl conn)
            (test_replay_counts _ _ _ _).1)
          (test_modified_wkc_counts _ _ _ _).1)
        (test_corrupted_data_counts _ _ _ _).1)
      (test_cmd_substitution_counts _ _ _ _).1
  · intro h
    have h0 : (EcatMitm.capture_frames recvs stale
        (add_log_v2 (add_log_v2 { findings := [], logs := [] } "Starting EtherCAT MITM tests")
          "Phase 1: Capturing traffic (2 seconds)") 2000).1.length = 0 := h
    simp only [(test_replay_counts _ _ _ _).2 h0, (test_modified_wkc_counts _ _ _ _).2 h0,
      (test_corrupted_data_counts _ _ _ _).2 h0, (test_cmd_substitution_counts _ _ _ _).2 h0,
      and_self]

/-- A counting loop in which every iteration sends adds one call per iteration. -/
theorem send_loop_length (t : Nat) :
    ∀ (reqs : List (Option (Buf × Nat))) (sent : Nat) (conn : Conn),
      (∀ r, r ∈ reqs → r ≠ none) →
      (send_loop t reqs sent conn).2.sent.length = conn.sent.length + reqs.length := by
  intro reqs
  induction reqs with
  | nil =>
    intro sent conn _
    rfl
  | cons r rest ih =>
    intro sent conn h
    cases r with
    | none => exact absurd rfl (h none (List.mem_cons_self _ _))
    | some fl =>
      obtain ⟨frame, len⟩ := fl
      rw [send_loop, ih _ _ (fun r hr => h r (List.mem_cons_of_mem _ hr)),
        (ops_send_result conn frame len t).2.2, List.length_cons]
      omega

/-- One iteration of the loop over the test table. -/
theorem run_tests_step (frame : Buf) (t : EcatInject.test_case_t)
    (rest : List EcatInject.test_case_t) (passed failed : Nat) (conn : Conn)
    (result : KrakenRunResultV2) :
    EcatInject.run_tests frame (t :: rest) passed failed conn result
      = EcatInject.run_tests frame rest
          (if (t.test_fn conn (add_log_v2 result ("Test: " ++ t.name)) frame).1 = 0
            then passed + 1 else passed)
          (if (t.test_fn conn (add_log_v2 result ("Test: " ++ t.name)) frame).1 = 0
            then failed else failed + 1)
          (t.test_fn conn (add_log_v2 result ("Test: " ++ t.name)) frame).2.1
          (add_log_v2 (t.test_fn conn (add_log_v2 result ("Test: " ++ t.name)) frame).2.2
            (if (t.test_fn conn (add_log_v2 result ("Test: " ++ t.name)) frame).1 = 0
              then "  PASS: Frame injected" else "  FAIL: Could not inject")) := by
  rw [EcatInject.run_tests]
  by_cases h : (t.test_fn conn (add_log_v2 result ("Test: " ++ t.name)) frame).1 = 0
  · simp only [h, if_true]
  · simp only [h, if_false]

/-- The three single-send tests: the return code is 0 unless the send returned a
negative count; one call is added; the findings are untouched. -/
theorem single_send_tests (conn : Conn) (result : KrakenRunResultV2) (frame : Buf) :
    ((EcatInject.test_spoofed_wkc conn result frame).1
        = (if conn.send_result conn.sent.length < 0 then -1 else 0) ∧
      (EcatInject.test_spoofed_wkc conn result frame).2.1.send_result = conn.send_result ∧
      (EcatInject.test_spoofed_wkc conn result frame).2.1.sent.length = conn.sent.length + 1 ∧
      (EcatInject.test_spoofed_wkc conn result frame).2.2.findings = result.findings) ∧
    ((EcatInject.test_invalid_length conn result frame).1
        = (if conn.send_result conn.sent.length < 0 then -1 else 0) ∧
      (EcatInject.test_invalid_length conn result frame).2.1.send_result = conn.send_result ∧
      (EcatInject.test_invalid_length conn result frame).2.1.sent.length
        = conn.sent.length + 1 ∧
      (EcatInject.test_invalid_length conn result frame).2.2.findings = result.findings) ∧
    ((EcatInject.test_slave_impersonation conn result frame).1
        = (if conn.send_result conn.sent.length < 0 then -1 else 0) ∧
      (EcatInject.test_slave_impersonation conn result frame).2.1.send_result
        = conn.send_result ∧
      (EcatInject.test_slave_impersonation conn result frame).2.1.sent.length
        = conn.sent.length + 1 ∧
      (EcatInject.test_slave_impersonation conn result frame).2.2.findings
        = result.findings) := by
  unfold EcatInject.test_spoofed_wkc EcatInject.test_invalid_length
    EcatInject.test_slave_impersonation
  simp only [(ops_send_result conn _ _ _).1]
  by_cases h : conn.send_result conn.sent.length < 0
  · simp only [if_pos h, (ops_send_result conn _ _ _).2.1, (ops_send_result conn _ _ _).2.2,
      add_log_v2_findings, and_self]
  · simp only [if_neg h, (ops_send_result conn _ _ _).2.1, (ops_send_result conn _ _ _).2.2,
      add_log_v2_findings, and_self]

/-- The NOP flood: the return code is 0 exactly when one of its 100 sends returned a
positive count. -/
theorem nop_flood_test (conn : Conn) (result : KrakenRunResultV2) (frame : Buf) :
    ((EcatInject.test_nop_flood conn result frame).1 = 0 ↔
      some_positive conn.send_result conn.sent.length (conn.sent.length + 100)) ∧
    (EcatInject.test_nop_flood conn result frame).2.1.send_result = conn.send_result ∧
    (EcatInject.test_nop_flood conn result frame).2.1.sent.length = conn.sent.length + 100 ∧
    (EcatInject.test_nop_flood conn result frame).2.2.findings = result.findings := by
  unfold EcatInject.test_nop_flood
  obtain ⟨h1, _, _, _, h5⟩ := send_loop_spec 10
    (List.replicate 100 (some ((EcatInject.build_frame frame 0 0 0 none 0 0).1,
      (EcatInject.build_frame frame 0 0 0 none 0 0).2))) 0 conn
  have hl := send_loop_length 10
    (List.replicate 100 (some ((EcatInject.build_frame frame 0 0 0 none 0 0).1,
      (EcatInject.build_frame frame 0 0 0 none 0 0).2))) 0 conn
    (fun r hr => by rw [List.eq_of_mem_replicate hr]; exact Option.some_ne_none _)
  rw [List.length_replicate] at hl
  rw [hl] at h5
  refine ⟨?_, h1, hl, rfl⟩
  rw [← h5]
  show (if _ > 0 then (0 : Int) else -1) = 0 ↔ _
  split <;> simp_all

/-- One iteration of the loop over the test table, with the outcome of the test named. -/
theorem run_tests_cons (frame : Buf) (t : EcatInject.test_case_t)
    (rest : List EcatInject.test_case_t) (passed failed : Nat) (conn : Conn)
    (result : KrakenRunResultV2) :
    ∃ code conn1 res1 res2,
      t.test_fn conn (add_log_v2 result ("Test: " ++ t.name)) frame = (code, conn1, res1) ∧
      res2.findings = res1.findings ∧
      EcatInject.run_tests frame (t :: rest) passed failed conn result
        = EcatInject.run_tests frame rest (if code = 0 then passed + 1 else passed)
            (if code = 0 then failed else failed + 1) conn1 res2 :=
  ⟨_, _, _, _, rfl, add_log_v2_findings _ _, run_tests_step frame t rest passed failed conn result⟩

/-- The loop over the four injection tests: 103 calls are added, the findings are
untouched, and at least one test passes exactly when one of the three single sends
returned a non-negative count or one of the 100 NOP sends returned a positive count. -/
theorem run_tests_spec (frame : Buf) (conn : Conn) (result : KrakenRunResultV2) :
    (EcatInject.run_tests frame EcatInject.tests 0 0 conn result).2.2.1.send_result
      = conn.send_result ∧
    (EcatInject.run_tests frame EcatInject.tests 0 0 conn result).2.2.1.sent.length
      = conn.sent.length + 103 ∧
    (EcatInject.run_tests frame EcatInject.tests 0 0 conn result).2.2.2.findings
      = result.findings ∧
    ((EcatInject.run_tests frame EcatInject.tests 0 0 conn result).1 > 0 ↔
      (conn.send_result conn.sent.length ≥ 0 ∨
        conn.send_result (conn.sent.length + 1) ≥ 0 ∨
        conn.send_result (conn.sent.length + 2) ≥ 0 ∨
        some_positive conn.send_result (conn.sent.length + 3) (conn.sent.length + 103))) := by
  unfold EcatInject.tests
  obtain ⟨k1, n1, a1, b1, e1, d1, s1⟩ := run_tests_cons frame
    { name := "spoofed_wkc", description := "Inject frame with spoofed working counter",
      test_fn := EcatInject.test_spoofed_wkc }
    [ { name := "invalid_length", description := "Inject frame with invalid length field",
        test_fn := EcatInject.test_invalid_length },
      { name := "slave_impersonation",
        description := "Inject frame impersonating slave response",
        test_fn := EcatInject.test_slave_impersonation },
      { name := "nop_flood", description := "Flood with NOP frames",
        test_fn := EcatInject.test_nop_flood } ] 0 0 conn result
  rw [s1]
  obtain ⟨k2, n2, a2, b2, e2, d2, s2⟩ := run_tests_cons frame
    { name := "invalid_length", description := "Inject frame with invalid length field",
      test_fn := EcatInject.test_invalid_length }
    [ { name := "slave_impersonation",
        description := "Inject frame impersonating slave response",
        test_fn := EcatInject.test_slave_impersonation },
      { name := "nop_flood", description := "Flood with NOP frames",
        test_fn := EcatInject.test_nop_flood } ]
    (if k1 = 0 then 0 + 1 else 0) (if k1 = 0 then 0 else 0 + 1) n1 b1
  rw [s2]
  obtain ⟨k3, n3, a3, b3, e3, d3, s3⟩ := run_tests_cons frame
    { name := "slave_impersonation",
      description := "Inject frame impersonating slave response",
      test_fn := EcatInject.test_slave_impersonation }
    [ { name := "nop_flood", description := "Flood with NOP frames",
        test_fn := EcatInject.test_nop_flood } ]
    (if k2 = 0 then (if k1 = 0 then 0 + 1 else 0) + 1 else (if k1 = 0 then 0 + 1 else 0))
    (if k2 = 0 then (if k1 = 0 then 0 else 0 + 1) else (if k1 = 0 then 0 else 0 + 1) + 1)
    n2 b2
  rw [s3]
  obtain ⟨k4, n4, a4, b4, e4, d4, s4⟩ := run_tests_cons frame
    { name := "nop_flood", description := "Flood with NOP frames",
      test_fn := EcatInject.test_nop_flood } []
    (if k3 = 0 then
      (if k2 = 0 then (if k1 = 0 then 0 + 1 else 0) + 1 else (if k1 = 0 then 0 + 1 else 0)) + 1
     else (if k2 = 0 then (if k1 = 0 then 0 + 1 else 0) + 1 else (if k1 = 0 then 0 + 1 else 0)))
    (if k3 = 0 then
      (if k2 = 0 then (if k1 = 0 then 0 else 0 + 1) else (if k1 = 0 then 0 else 0 + 1) + 1)
     else
      (if k2 = 0 then (if k1 = 0 then 0 else 0 + 1) else (if k1 = 0 then 0 else 0 + 1) + 1) + 1)
    n3 b3
  rw [s4, EcatInject.run_tests]
  have t1 := (single_send_tests conn
    (add_log_v2 result ("Test: " ++ "spoofed_wkc")) frame).1
  have t2 := (single_send_tests n1
    (add_log_v2 b1 ("Test: " ++ "invalid_length")) frame).2.1
  have t3 := (single_send_tests n2
    (add_log_v2 b2 ("Test: " ++ "slave_impersonation")) frame).2.2
  have t4 := nop_flood_test n3 (add_log_v2 b3 ("Test: " ++ "nop_flood")) frame
  change EcatInject.test_spoofed_wkc conn
    (add_log_v2 result ("Test: " ++ "spoofed_wkc")) frame = _ at e1
  change EcatInject.test_invalid_length n1
    (add_log_v2 b1 ("Test: " ++ "invalid_length")) frame = _ at e2
  change EcatInject.test_slave_impersonation n2
    (add_log_v2 b2 ("Test: " ++ "slave_impersonation")) frame = _ at e3
  change EcatInject.test_nop_flood n3
    (add_log_v2 b3 ("Test: " ++ "nop_flood")) frame = _ at e4
  rw [e1] at t1
  rw [e2] at t2
  rw [e3] at t3
  rw [e4] at t4
  obtain ⟨c1, f1, l1, g1⟩ := t1
  obtain ⟨c2, f2, l2, g2⟩ := t2
  obtain ⟨c3, f3, l3, g3⟩ := t3
  obtain ⟨c4, f4, l4, g4⟩ := t4
  simp only [] at c1 f1 l1 g1 c2 f2 l2 g2 c3 f3 l3 g3 c4 f4 l4 g4
  have hk1 : k1 = 0 ↔ conn.send_result conn.sent.length ≥ 0 := by
    rw [c1]
    split <;> omega
  have hk2 : k2 = 0 ↔ conn.send_result (conn.sent.length + 1) ≥ 0 := by
    rw [c2, f1, l1]
    split <;> omega
  have hk3 : k3 = 0 ↔ conn.send_result (conn.sent.length + 2) ≥ 0 := by
    have e : conn.sent.length + 1 + 1 = conn.sent.length + 2 := by omega
    rw [c3, f2, f1, l2, l1, e]
    split <;> omega
  have hk4 : k4 = 0 ↔
      some_positive conn.send_result (conn.sent.length + 3) (conn.sent.length + 103) := by
    have e1 : conn.sent.length + 1 + 1 + 1 = conn.sent.length + 3 := by omega
    have e2 : conn.sent.length + 3 + 100 = conn.sent.length + 103 := by omega
    rw [c4, f3, f2, f1, l3, l2, l1, e1, e2]
  refine ⟨?_, ?_, ?_, ?_⟩
  · show n4.send_result = conn.send_result
    rw [f4, f3, f2, f1]
  · show n4.sent.length = conn.sent.length + 103
    omega
  · show b4.findings = result.findings
    rw [d4, g4, add_log_v2_findings, d3, g3, add_log_v2_findings, d2, g2,
      add_log_v2_findings, d1, g1, add_log_v2_findings]
  · rw [← hk1, ← hk2, ← hk3, ← hk4]
    show (if k4 = 0 then
        (if k3 = 0 then (if k2 = 0 then (if k1 = 0 then 0 + 1 else 0) + 1
            else if k1 = 0 then 0 + 1 else 0) + 1
          else if k2 = 0 then (if k1 = 0 then 0 + 1 else 0) + 1
            else if k1 = 0 then 0 + 1 else 0) + 1
      else
        if k3 = 0 then (if k2 = 0 then (if k1 = 0 then 0 + 1 else 0) + 1
            else if k1 = 0 then 0 + 1 else 0) + 1
          else if k2 = 0 then (if k1 = 0 then 0 + 1 else 0) + 1
            else if k1 = 0 then 0 + 1 else 0) > 0 ↔ _
    by_cases p1 : k1 = 0 <;> by_cases p2 : k2 = 0 <;> by_cases p3 : k3 = 0 <;>
      by_cases p4 : k4 = 0 <;> simp [p1, p2, p3, p4]

/-- The injection module as a whole: one finding whose success flag is the test
`passed > 0` and whose severity is `medium` or `info` accordingly; 103 sends are made. -/
theorem inject_run_spec (conn : Conn) (frame : Buf) :
    ∃ passed conn2 r,
      EcatInject.kraken_run_v2 true conn frame
        = (0, some (add_finding_v2 r
            { id := "ecat-injection", module_id := "ecat_inject",
              success := decide (passed > 0), title := "EtherCAT Frame Injection",
              severity := if passed > 0 then "medium" else "info" }), conn2) ∧
      r.findings = [] ∧
      conn2.send_result = conn.send_result ∧
      conn2.sent.length = conn.sent.length + 103 ∧
      (passed > 0 ↔
        (conn.send_result conn.sent.length ≥ 0 ∨
          conn.send_result (conn.sent.length + 1) ≥ 0 ∨
          conn.send_result (conn.sent.length + 2) ≥ 0 ∨
          some_positive conn.send_result (conn.sent.length + 3) (conn.sent.length + 103))) := by
  obtain ⟨h1, h2, h3, h4⟩ := run_tests_spec frame conn
    (add_log_v2 { findings := [], logs := [] } "Starting EtherCAT frame injection tests")
  refine ⟨_, _, _, rfl, ?_, h1, h2, h4⟩
  rw [add_log_v2_findings, h3]
  rfl

/-- With no qualifying receive result the capture loop stores nothing. -/
theorem capture_loop_none (stale : Nat → Buf) :
    ∀ (rs : List (Int × Buf)) (calls : Nat),
      (∀ r, r ∈ rs → EcatMitm.qualifies r = false) →
      EcatMitm.capture_loop stale rs [] calls = ([], calls + rs.length) := by
  intro rs
  induction rs with
  | nil =>
    intro calls _
    rfl
  | cons r rest ih =>
    intro calls h
    have hq : ¬ EcatMitm.qualifies r = true := by
      rw [h r (List.mem_cons_self _ _)]
      exact Bool.false_ne_true
    have h0 : ([] : List EcatMitm.captured_frame_t).length < MAX_CAPTURED := by decide
    rw [capture_loop_cons, if_pos h0, if_neg hq,
      ih (calls + 1) (fun x hx => h x (List.mem_cons_of_mem _ hx)), List.length_cons]
    congr 1
    omega

/-- On an empty capture buffer each of the four tests returns 0, makes no send call and
appends its own line to the log. -/
theorem mitm_tests_nil (conn : Conn) (result : KrakenRunResultV2) (modified : Buf) :
    EcatMitm.test_replay conn [] result modified
      = (0, conn, add_log_v2 result "  Replay: no frames to replay") ∧
    EcatMitm.test_modified_wkc conn [] result modified
      = (0, conn, add_log_v2 result "  Modified WKC: no frames") ∧
    EcatMitm.test_corrupted_data conn [] result modified
      = (0, conn, add_log_v2 result "  Corrupted data: no frames") ∧
    EcatMitm.test_cmd_substitution conn [] result modified
      = (0, conn, add_log_v2 result "  Cmd substitution: no frames") :=
  ⟨rfl, rfl, rfl, rfl⟩

/-! ## Claims on the modules as a whole -/

/-- C13: when the capture phase receives no qualifying frame, the captured count is 0,
each of the four tests returns 0 without a send call and appends its own line to the
log, in the order replay, modified WKC, corrupted data, command substitution; the
invocation leaves the connection without any send call, and its single finding has
`success = false` and severity `info`. -/
theorem mitm_nothing_captured (conn : Conn) (recvs : List (Int × Buf)) (stale : Nat → Buf)
    (modified : Buf) (result : KrakenRunResultV2) (duration_ms : Int)
    (h : ∀ r, r ∈ recvs → EcatMitm.qualifies r = false) :
    (EcatMitm.capture_frames recvs stale result duration_ms).1 = [] ∧
    (EcatMitm.capture_frames recvs stale result duration_ms).2.2.2 = 0 ∧
    EcatMitm.test_replay conn [] result modified
      = (0, conn, add_log_v2 result "  Replay: no frames to replay") ∧
    EcatMitm.test_modified_wkc conn [] result modified
      = (0, conn, add_log_v2 result "  Modified WKC: no frames") ∧
    EcatMitm.test_corrupted_data conn [] result modified
      = (0, conn, add_log_v2 result "  Corrupted data: no frames") ∧
    EcatMitm.test_cmd_substitution conn [] result modified
      = (0, conn, add_log_v2 result "  Cmd substitution: no frames") ∧
    EcatMitm.kraken_run_v2 true conn recvs stale modified
      = (0,
          some
            { findings :=
                [{ id := "ecat-mitm", module_id := "ecat_mitm", success := false,
                   title := "EtherCAT MITM Testing", severity := "info" }],
              logs :=
                ["Starting EtherCAT MITM tests",
                 "Phase 1: Capturing traffic (2 seconds)",
                 "  Captured 0 EtherCAT frames",
                 "Phase 2: Replay attacks",
                 "Test 1: Simple replay",
                 "  Replay: no frames to replay",
                 "Test 2: Modified WKC",
                 "  Modified WKC: no frames",
                 "Test 3: Corrupted data",
                 "  Corrupted data: no frames",
                 "Test 4: Command substitution",
                 "  Cmd substitution: no frames",
                 "MITM tests complete. Captured 0, replayed/modified 0 frames"] },
          conn) := by
  have hc := capture_loop_none stale recvs 0 h
  refine ⟨?_, ?_, rfl, rfl, rfl, rfl, ?_⟩
  · show (EcatMitm.capture_loop stale recvs [] 0).1 = []
    rw [hc]
  · show (((EcatMitm.capture_loop stale recvs [] 0).1.length : Nat) : Int) = 0
    rw [hc]
    rfl
  · unfold EcatMitm.kraken_run_v2 EcatMitm.capture_frames
    rw [hc]
    simp only [Bool.true_eq_false, if_false, (mitm_tests_nil _ _ _).1,
      (mitm_tests_nil _ _ _).2.1, (mitm_tests_nil _ _ _).2.2.1, (mitm_tests_nil _ _ _).2.2.2]
    refine Prod.ext rfl (Prod.ext ?_ rfl)
    show some _ = some _
    congr 1

/-- C13 on two receive results that do not qualify (a 12-byte chunk and an error). -/
theorem mitm_nothing_captured_witness :
    (EcatMitm.capture_frames [(12, entry_short.data), (-1, zeroed)] (fun _ => zeroed)
        empty_result 2000).1 = [] ∧
    (EcatMitm.kraken_run_v2 true conn_fail [(12, entry_short.data), (-1, zeroed)]
        (fun _ => zeroed) zeroed).2.2 = conn_fail :=
  have h := mitm_nothing_captured conn_fail [(12, entry_short.data), (-1, zeroed)]
    (fun _ => zeroed) zeroed empty_result 2000 (by decide)
  ⟨h.1, congrArg (fun x => x.2.2) h.2.2.2.2.2.2⟩

theorem not_some_positive_of_nonpos (f : Nat → Int) (a b : Nat) (h : ∀ k, f k ≤ 0) :
    ¬ some_positive f a b := by
  rintro ⟨k, _, _, hk⟩
  have := h k
  omega

/-- C14 as stated fails: when every `send` returns 0, the injection module makes 103
sends, none returns a positive byte count, the spoofed-WKC test still returns 0 (passed)
and the finding's success flag is true. -/
theorem inject_success_counterexample :
    (EcatInject.kraken_run_v2 true conn_zero zeroed).2.2.sent.length = 103 ∧
    ¬ some_positive conn_zero.send_result 0 103 ∧
    (EcatInject.test_spoofed_wkc conn_zero empty_result zeroed).1 = 0 ∧
    (EcatInject.kraken_run_v2 true conn_zero zeroed).2.1.map
        (fun r => r.findings.map (fun f => f.success)) = some [true] := by
  obtain ⟨passed, conn2, r, h, hr, _, hl, hp⟩ := inject_run_spec conn_zero zeroed
  have hpos : passed > 0 := hp.mpr (Or.inl (by decide))
  rw [h]
  refine ⟨hl, not_some_positive_of_nonpos _ _ _ (fun _ => by show (0 : Int) ≤ 0; decide), ?_, ?_⟩
  · rw [(single_send_tests conn_zero empty_result zeroed).1.1]
    decide
  · show some ((add_finding_v2 r _).findings.map (fun f => f.success)) = some [true]
    unfold add_finding_v2
    simp only [hr, List.nil_append, List.map_cons, List.map_nil, decide_eq_true hpos]

/-- C14, amended: in the DoS and the MITM module the success flag of the single finding
is true exactly when one of the sends made during the invocation returned a positive
byte count. In the injection module it is true exactly when one of the four tests
passed; the spoofed-WKC, invalid-length and impersonation tests pass exactly when their
single send returned a non-negative byte count, the NOP flood exactly when one of its
100 sends returned a positive byte count. -/
theorem success_flag_spec (conn : Conn) (flood_iterations : Nat) (frame : Buf)
    (recvs : List (Int × Buf)) (stale : Nat → Buf) (modified : Buf)
    (result : KrakenRunResultV2) :
    (∃ r f conn2,
      EcatDos.kraken_run_v2 true conn flood_iterations frame = (0, some r, conn2) ∧
      r.findings = [f] ∧ conn2.send_result = conn.send_result ∧
      (f.success = true ↔
        some_positive conn.send_result conn.sent.length conn2.sent.length)) ∧
    (∃ r f conn2,
      EcatMitm.kraken_run_v2 true conn recvs stale modified = (0, some r, conn2) ∧
      r.findings = [f] ∧ conn2.send_result = conn.send_result ∧
      (f.success = true ↔
        some_positive conn.send_result conn.sent.length conn2.sent.length)) ∧
    (∃ r f conn2,
      EcatInject.kraken_run_v2 true conn frame = (0, some r, conn2) ∧
      r.findings = [f] ∧ conn2.send_result = conn.send_result ∧
      conn2.sent.length = conn.sent.length + 103 ∧
      (f.success = true ↔
        (conn.send_result conn.sent.length ≥ 0 ∨
          conn.send_result (conn.sent.length + 1) ≥ 0 ∨
          conn.send_result (conn.sent.length + 2) ≥ 0 ∨
          some_positive conn.send_result (conn.sent.length + 3) (conn.sent.length + 103)))) ∧
    ((EcatInject.test_spoofed_wkc conn result frame).1 = 0 ↔
      conn.send_result conn.sent.length ≥ 0) ∧
    ((EcatInject.test_invalid_length conn result frame).1 = 0 ↔
      conn.send_result conn.sent.length ≥ 0) ∧
    ((EcatInject.test_slave_impersonation conn result frame).1 = 0 ↔
      conn.send_result conn.sent.length ≥ 0) ∧
    ((EcatInject.test_nop_flood conn result frame).1 = 0 ↔
      some_positive conn.send_result conn.sent.length (conn.sent.length + 100)) := by
  obtain ⟨s1, s2, s3⟩ := single_send_tests conn result frame
  refine ⟨?_, ?_, ?_, ?_, ?_, ?_, (nop_flood_test conn result frame).1⟩
  · obtain ⟨total, conn2, h, hc1, _, hc3⟩ := dos_run_spec conn flood_iterations frame
    refine ⟨_, _, conn2, h, rfl, hc1, ?_⟩
    rw [← hc3]
    exact decide_eq_true_iff
  · obtain ⟨total, conn2, r, h, hr, ⟨hc1, hc2, hc3⟩, h0⟩ :=
      mitm_run_spec conn recvs stale modified
    refine ⟨_, _, conn2, h, by unfold add_finding_v2; rw [hr]; rfl, hc1, ?_⟩
    rw [← hc3]
    show decide ((EcatMitm.capture_loop stale recvs [] 0).1.length > 0 ∧ total > 0) = true ↔ _
    rw [decide_eq_true_iff]
    constructor
    · intro hh
      exact hh.2
    · intro hh
      refine ⟨?_, hh⟩
      by_cases hl : (EcatMitm.capture_loop stale recvs [] 0).1.length = 0
      · have := (h0 hl).2
        omega
      · omega
  · obtain ⟨passed, conn2, r, h, hr, hf, hl, hp⟩ := inject_run_spec conn frame
    refine ⟨_, _, conn2, h, by unfold add_finding_v2; rw [hr]; rfl, hf, hl, ?_⟩
    rw [← hp]
    exact decide_eq_true_iff
  · rw [s1.1]
    split <;> omega
  · rw [s2.1]
    split <;> omega
  · rw [s3.1]
    split <;> omega

/-- C15 at a DoS invocation in which every `send` fails: the finding has
`success = false`, yet its severity is `medium`, not `info`. -/
theorem dos_severity_without_success :
    (EcatDos.kraken_run_v2 true conn_fail 3 zeroed).2.1.map
        (fun r => r.findings.map (fun f => (f.success, f.severity)))
      = some [(false, "medium")] := by
  obtain ⟨total, conn2, h, _, _, hc3⟩ := dos_run_spec conn_fail 3 zeroed
  have hz : ¬ total > 0 := fun hpos =>
    not_some_positive_of_nonpos _ _ _ (fun _ => by show (-1 : Int) ≤ 0; decide) (hc3.mp hpos)
  rw [h]
  show some [(decide (total > 0), "medium")] = some [(false, "medium")]
  rw [decide_eq_false hz]

/-- The severity of the finding in each module: always `medium` in the DoS module;
`medium` or `info` by the success flag in the injection module; `high` or `info` by
the success flag in the MITM module. -/
theorem severity_by_module (conn : Conn) (flood_iterations : Nat) (frame : Buf)
    (recvs : List (Int × Buf)) (stale : Nat → Buf) (modified : Buf) :
    (EcatDos.kraken_run_v2 true conn flood_iterations frame).2.1.map
        (fun r => r.findings.map (fun f => f.severity)) = some ["medium"] ∧
    (EcatInject.kraken_run_v2 true conn frame).2.1.map
        (fun r => r.findings.map (fun f => f.severity))
      = (EcatInject.kraken_run_v2 true conn frame).2.1.map
          (fun r => r.findings.map (fun f => if f.success = true then "medium" else "info")) ∧
    (EcatMitm.kraken_run_v2 true conn recvs stale modified).2.1.map
        (fun r => r.findings.map (fun f => f.severity))
      = (EcatMitm.kraken_run_v2 true conn recvs stale modified).2.1.map
          (fun r => r.findings.map (fun f => if f.success = true then "high" else "info")) := by
  refine ⟨?_, ?_, ?_⟩
  · obtain ⟨total, conn2, h, _⟩ := dos_run_spec conn flood_iterations frame
    rw [h]
    rfl
  · obtain ⟨passed, conn2, r, h, hr, _⟩ := inject_run_spec conn frame
    rw [h]
    unfold add_finding_v2
    simp only [hr, Option.map_some', List.nil_append, List.map_cons, List.map_nil,
      decide_eq_true_eq]
  · obtain ⟨total, conn2, r, h, hr, _⟩ := mitm_run_spec conn recvs stale modified
    rw [h]
    unfold add_finding_v2
    simp only [hr, Option.map_some', List.nil_append, List.map_cons, List.map_nil]

end Kraken
